import Mathlib

/-!
# OpenJazz `main.cpp`: start-up, shut-down, stage sequencing and the frame loop

A shallow embedding of `src/main.cpp`.  The file defines `Main::Main`,
`Main::~Main`, `Main::play`, `loop` and `main`; everything they call lives in
other translation units (SDL, `File`, `Font`, `Video`, `Controls`, `JJ1Scene`,
`MainMenu`, ...).  Those collaborators are represented by

* `Call`  : one constructor per call that `main.cpp` makes on a collaborator,
            carrying its arguments and, for a call that can fail, whether it
            succeeded;
* `Env`   : the answers of the collaborators and the values of the constants
            that `main.cpp` takes from headers (`E_NONE`, `T_ACTIVE_FRAME`, ...);
* `Build` : the preprocessor switches that `main.cpp` tests;
* `World` : the call history, the SDL tick counter, the SDL event queue and the
            globals `globalTicks` and `volume_direction`.

C++ exceptions are explicit results of type `Except Thrown Unit`.
-/

namespace OpenJazz

/-- A `std::string` / C string: its sequence of characters. -/
abbrev Str := List Char

/-- The backslash character (the `WIN32` value of `pathSlash`). -/
def backslash : Char := Char.ofNat 92

/-- The font globals assigned in the constructor, named as in the source. -/
inductive FontId
  | panelBigFont | panelSmallFont | font2 | fontbig | fontiny | fontmn1 | fontmn2
  deriving DecidableEq, Repr

/-- The two cutscene files that `Main::play` hands to `JJ1Scene`. -/
inductive SceneFile
  | F_STARTUP_0SC | F_END_0SC
  deriving DecidableEq, Repr

/-- An `SDL_Event`: its `type`, the `jbutton.button` field read by the WIZ/GP2X
block of `loop`, and the rest of the payload, which `main.cpp` never reads. -/
structure Event where
  type : Nat
  button : Nat
  payload : Nat
  deriving DecidableEq, Repr

/-- The enum `LoopType` (declared in `loop.h`), as its integer value. -/
abbrev LoopType := Nat

/-- A `PaletteEffect*`, which `loop` only forwards to `video.flip`. -/
abbrev PaletteEffects := Nat

/-- Calls made by `main.cpp` on its collaborators.  A Boolean `ok` on a call
records whether the call succeeded (returned true / did not throw). -/
inductive Call
  | addSearchPath (p : Str)
  | addDataSearchPath (p : Str)
  | addConfigPath (p : Str)
  | createString
  | setupLoad
  | videoInit (w h : Int) (fullscreen : Bool) (ok : Bool)
  | setScaleFactor (f : Int)
  | numJoysticks
  | joystickOpen
  | openAudio
  | closeAudio
  | newFile (ok : Bool)
  | loadRLE
  | deleteFile
  | newFont (f : FontId) (ok : Bool)
  | deleteFont (f : FontId)
  | deletePixels
  | getTicks
  | newNetwork
  | deleteNet
  | getScaleFactor
  | freeCanvas
  | setupSave
  | sdlInit (ok : Bool)
  | logError
  | sdlQuit
  | newScene (f : SceneFile) (ok : Bool)
  | scenePlay (f : SceneFile)
  | deleteScene (f : SceneFile)
  | newMenu (ok : Bool)
  | menuMain
  | deleteMenu
  | delay (d : Nat)
  | flip (delta : Nat) (effects : PaletteEffects)
  | controlsUpdate (e : Event) (t : LoopType)
  | videoUpdate (e : Event)
  | controlsLoop
  | wizAdjustVolume (direction : Int)
  deriving DecidableEq, Repr

/-- The four values that `setup.load` may overwrite through its pointers. -/
structure Settings where
  screenW : Int
  screenH : Int
  fullscreen : Bool
  scaleFactor : Int
  deriving DecidableEq, Repr

/-- What is thrown out of a function of `main.cpp`: an `int` error code
(`throw E_VIDEO`, `throw e`), the `std::out_of_range` of `argument.at(0)`, or
the `std::logic_error` of a `std::string` built from a null `getenv("HOME")`. -/
inductive Thrown
  | code (e : Int)
  | out_of_range
  | logic_error
  deriving DecidableEq, Repr

/-- Preprocessor switches tested in `main.cpp`, with the two strings that the
switched code reads: `KOpenJazzPath`, and `HOME`, the result of
`getenv("HOME")`, which is `none` (a null pointer) when the variable is unset. -/
structure Build where
  DATAPATH : Option Str
  SYMBIAN32 : Bool
  UIQ3 : Bool
  KOpenJazzPath : Str
  WIN32 : Bool
  HOMEDIR : Bool
  LINUX_FHS : Bool
  HOME : Option Str
  FULLSCREEN_ONLY : Bool
  SCALE : Bool
  WIZ_GP2X : Bool

/-- Constants that `main.cpp` takes from headers, and the answers of the
collaborators it calls.  `clockAfter h c t` is the value of the SDL tick counter
when call `c`, made at tick `t` after history `h`, returns. -/
structure Env where
  E_NONE : Int
  E_QUIT : Int
  E_VIDEO : Int
  SW : Int
  SH : Int
  SDL_QUIT : Nat
  SDL_JOYBUTTONDOWN : Nat
  SDL_JOYBUTTONUP : Nat
  GP2X_BUTTON_VOLUP : Nat
  GP2X_BUTTON_VOLDOWN : Nat
  VOLUME_UP : Int
  VOLUME_DOWN : Int
  VOLUME_NOCHG : Int
  T_ACTIVE_FRAME : Nat
  clockAfter : List Call → Call → Nat → Nat
  setupLoad : Settings → Settings
  videoInit : Int → Int → Bool → Bool
  numJoysticks : Int
  getScaleFactor : Int
  panelOpen : Option Int
  fontCtor : FontId → Option Int
  sceneCtor : SceneFile → Option Int
  scenePlay : SceneFile → Int
  menuCtor : Option Int
  menuMain : Int
  sdlInit : Int
  controlsUpdate : List Call → Event → LoopType → Int

/-- The state outside the functions of `main.cpp`: the history of collaborator
calls, the SDL tick counter, the pending SDL events (in the order in which
`SDL_PollEvent` delivers them), and the globals `globalTicks` and
`volume_direction`. -/
structure World where
  trace : List Call
  now : Nat
  queue : List Event
  globalTicks : Nat
  volume_direction : Int

/-- Perform a collaborator call: record it and let the clock advance. -/
def World.call (E : Env) (w : World) (c : Call) : World :=
  { w with trace := w.trace ++ [c], now := E.clockAfter w.trace c w.now }

/-- Perform several collaborator calls in order. -/
def World.calls (E : Env) (w : World) (cs : List Call) : World :=
  cs.foldl (World.call E) w

/-! ## `Main::Main`, lines 101-165: the search paths -/

/-- The local `pathSlash` (lines 118-122). -/
def pathSlash (B : Build) : Char :=
  if B.WIN32 then backslash else '/'

/-- Lines 105-116: the hard-coded paths. -/
def hardCodedPaths (B : Build) : List Call :=
  (match B.DATAPATH with
    | some d => [Call.addSearchPath d]
    | none => []) ++
  (if B.SYMBIAN32 then
    [if B.UIQ3 then
        Call.addSearchPath ("c:".toList ++ [backslash] ++ "shared".toList ++ [backslash]
          ++ "openjazz".toList ++ [backslash])
      else
        Call.addSearchPath ("c:".toList ++ [backslash] ++ "data".toList ++ [backslash]
          ++ "openjazz".toList ++ [backslash]),
      Call.addSearchPath B.KOpenJazzPath]
  else [])

/-- Lines 127-139: the loop over `argv[1..argc-1]`.  `options` is the
`std::set` of flag arguments; `argument.at(0)` throws on an empty argument. -/
def argLoop (E : Env) (slash : Char) :
    List Str → World → List Str → World × Except Thrown (List Str)
  | [], w, options => (w, .ok options)
  | argument :: rest, w, options =>
    match argument.head? with
    | none => (w, .error Thrown.out_of_range)
    | some c =>
      if c ≠ '-' then
        if argument.getLast? ≠ some slash then
          argLoop E slash rest (w.call E (Call.addDataSearchPath (argument ++ [slash]))) options
        else
          argLoop E slash rest (w.call E (Call.addDataSearchPath argument)) options
      else
        argLoop E slash rest w (if argument ∈ options then options else options ++ [argument])

/-- The function `std::string::find_last_of(char)`: the greatest index holding
`c`, or `none` for `npos`.  The scan keeps the last match seen. -/
def findLastOfFrom (c : Char) : List Char → Nat → Option Nat → Option Nat
  | [], _, found => found
  | x :: xs, i, found => findLastOfFrom c xs (i + 1) (if x = c then some i else found)

/-- Index of the last `c` in `s`, if any. -/
def findLastOf (s : Str) (c : Char) : Option Nat :=
  findLastOfFrom c s 0 none

/-- Lines 143-149: the path of the program. -/
def programPath (E : Env) (slash : Char) (argv0 : Str) (w : World) : World :=
  match findLastOf argv0 slash with
  | some directorySeparator =>
    w.call E (Call.addDataSearchPath (argv0.take (directorySeparator + 1)))
  | none => w

/-- Line 154, under `HOMEDIR`: `std::string(getenv("HOME"))` throws when `HOME`
is unset, before anything is registered. -/
def homeDirPath (E : Env) (B : Build) (w : World) : World × Except Thrown Unit :=
  if B.HOMEDIR then
    match B.HOME with
    | none => (w, .error Thrown.logic_error)
    | some home => (w.call E (Call.addSearchPath (home ++ [pathSlash B])), .ok ())
  else (w, .ok ())

/-- Lines 158-160, under `LINUX_FHS`: the system data path is registered first;
`std::string(getenv("HOME"))` of line 159 throws when `HOME` is unset. -/
def fhsPaths (E : Env) (B : Build) (w : World) : World × Except Thrown Unit :=
  if B.LINUX_FHS then
    let w := w.call E (Call.addDataSearchPath "/usr/share/games/OpenJazz/".toList)
    match B.HOME with
    | none => (w, .error Thrown.logic_error)
    | some home =>
      let w := w.call E (Call.addDataSearchPath (home ++ "/.local/share/OpenJazz/".toList))
      let w := w.call E (Call.addConfigPath (home ++ "/.config/".toList))
      (w, .ok ())
  else (w, .ok ())

/-- Lines 153-161: the home directory entries. -/
def homePaths (E : Env) (B : Build) (w : World) : World × Except Thrown Unit :=
  match homeDirPath E B w with
  | (w, .error t) => (w, .error t)
  | (w, .ok ()) => fhsPaths E B w

/-- Lines 101-165 of `Main::Main`: registers the search paths and returns the
set of options. -/
def determinePaths (E : Env) (B : Build) (argv0 : Str) (args : List Str) (w : World) :
    World × Except Thrown (List Str) :=
  let w := w.calls E (hardCodedPaths B)
  match argLoop E (pathSlash B) args w [] with
  | (w, .error t) => (w, .error t)
  | (w, .ok options) =>
    let w := programPath E (pathSlash B) argv0 w
    match homePaths E B w with
    | (w, .error t) => (w, .error t)
    | (w, .ok ()) =>
      let w := w.call E (Call.addDataSearchPath [])
      (w, .ok options)

/-! ## `Main::Main`, lines 167-288: settings, window, audio, fonts, network -/

/-- A 32-bit machine integer from a mathematical one (`unsigned int`
arithmetic: `SDL_GetTicks`, `SDL_Delay` and `globalTicks` are 32 bits wide). -/
def wrap32 (x : Int) : Nat := (x % 2 ^ 32).toNat

/-- The call `SDL_GetTicks()`: the value read is the tick counter, as a `Uint32`. -/
def getTicks (E : Env) (w : World) : World × Nat :=
  let w := w.call E Call.getTicks
  (w, w.now % 2 ^ 32)

/-- The order of the `new Font` statements of lines 244-250. -/
def fontOrder : List FontId :=
  [FontId.panelBigFont, FontId.panelSmallFont, FontId.font2, FontId.fontbig,
   FontId.fontiny, FontId.fontmn1, FontId.fontmn2]

/-- Lines 244-250, the body of the `try`: the fonts are constructed one after the
other; `built` holds the font pointers that have been assigned (they are NULL
before, lines 235-240).  The first constructor that throws ends the block. -/
def constructFonts (E : Env) :
    List FontId → World → List FontId → World × List FontId × Option Int
  | [], w, built => (w, built, none)
  | f :: rest, w, built =>
    match E.fontCtor f with
    | some e => (w.call E (Call.newFont f false), built, some e)
    | none => constructFonts E rest (w.call E (Call.newFont f true)) (built ++ [f])

/-- Lines 254-259, the deletes of the `catch`: six pointers are tested in this
order and the non-NULL ones deleted. -/
def deleteBuiltFonts (E : Env) (built : List FontId) (w : World) : World :=
  let w := if FontId.panelBigFont ∈ built then w.call E (Call.deleteFont FontId.panelBigFont) else w
  let w := if FontId.panelSmallFont ∈ built then w.call E (Call.deleteFont FontId.panelSmallFont) else w
  let w := if FontId.font2 ∈ built then w.call E (Call.deleteFont FontId.font2) else w
  let w := if FontId.fontbig ∈ built then w.call E (Call.deleteFont FontId.fontbig) else w
  let w := if FontId.fontiny ∈ built then w.call E (Call.deleteFont FontId.fontiny) else w
  let w := if FontId.fontmn1 ∈ built then w.call E (Call.deleteFont FontId.fontmn1) else w
  w

/-- Lines 91-98 and 181: the locals `screenW`, `screenH`, `fullscreen` and
`scaleFactor` with their initial values, as left by `setup.load`. -/
def loadSettings (E : Env) (B : Build) : Settings :=
  E.setupLoad ⟨E.SW, E.SH, B.FULLSCREEN_ONLY, 1⟩

/-- Lines 186-189: the value of `fullscreen` passed to `video.init`; outside a
`FULLSCREEN_ONLY` build the option `-f` overrides the loaded setting. -/
def fullscreenMode (E : Env) (B : Build) (options : List Str) : Bool :=
  if !B.FULLSCREEN_ONLY && decide ("-f".toList ∈ options) then true
  else (loadSettings E B).fullscreen

/-- Lines 167-207 of `Main::Main`: default settings, the configuration file,
the command-line override, the window and the joystick.  `options` is the set
of flag arguments.  The assignments to `soundsVolume` and `volume` have no
effect on what follows and are left out. -/
def openWindow (E : Env) (B : Build) (options : List Str) (w : World) :
    World × Except Thrown Unit :=
  let w := w.call E Call.createString
  let w := w.call E Call.setupLoad
  let s := loadSettings E B
  let fullscreen := fullscreenMode E B options
  let ok := E.videoInit s.screenW s.screenH fullscreen
  let w := w.call E (Call.videoInit s.screenW s.screenH fullscreen ok)
  if !ok then (w, .error (Thrown.code E.E_VIDEO)) else
  let w := if B.SCALE then w.call E (Call.setScaleFactor s.scaleFactor) else w
  let w := w.call E Call.numJoysticks
  let w := if E.numJoysticks > 0 then w.call E Call.joystickOpen else w
  (w, .ok ())

/-- Lines 210-288 of `Main::Main`: audio, the panel and the fonts, timing and
networking.  The assignments to `sinLut`, `level` and `jj2Level` have no effect
on what follows and are left out. -/
def loadResources (E : Env) (w : World) : World × Except Thrown Unit :=
  let w := w.call E Call.openAudio
  match E.panelOpen with
  | some e =>
    let w := w.call E (Call.newFile false)
    let w := w.call E Call.closeAudio
    (w, .error (Thrown.code e))
  | none =>
    let w := w.call E (Call.newFile true)
    let w := w.call E Call.loadRLE
    let w := w.call E Call.deleteFile
    match constructFonts E fontOrder w [] with
    | (w, built, some e) =>
      let w := deleteBuiltFonts E built w
      let w := w.call E Call.deletePixels
      let w := w.call E Call.closeAudio
      (w, .error (Thrown.code e))
    | (w, _, none) =>
      let w := w.call E Call.deletePixels
      let (w, ticks) := getTicks E w
      let w := { w with globalTicks := wrap32 ((ticks : Int) - 20) }
      let w := w.call E Call.newNetwork
      (w, .ok ())

set_option linter.dupNamespace false in
/-- The constructor `Main::Main (int argc, char *argv[])`; `argv0` is `argv[0]`
and `args` is `argv[1..argc-1]`. -/
def Main.Main (E : Env) (B : Build) (argv0 : Str) (args : List Str) (w : World) :
    World × Except Thrown Unit :=
  match determinePaths E B argv0 args w with
  | (w, .error t) => (w, .error t)
  | (w, .ok options) =>
    match openWindow E B options w with
    | (w, .error t) => (w, .error t)
    | (w, .ok ()) => loadResources E w

/-! ## `Main::~Main` -/

/-- The destructor `Main::~Main ()`, lines 296-317. -/
def Main.dtor (E : Env) (B : Build) (w : World) : World :=
  let w := w.call E Call.deleteNet
  let w := w.call E (Call.deleteFont FontId.panelBigFont)
  let w := w.call E (Call.deleteFont FontId.panelSmallFont)
  let w := w.call E (Call.deleteFont FontId.font2)
  let w := w.call E (Call.deleteFont FontId.fontbig)
  let w := w.call E (Call.deleteFont FontId.fontiny)
  let w := w.call E (Call.deleteFont FontId.fontmn1)
  let w := w.call E (Call.deleteFont FontId.fontmn2)
  let w :=
    if B.SCALE then
      let w := w.call E Call.getScaleFactor
      if E.getScaleFactor > 1 then w.call E Call.freeCanvas else w
    else w
  let w := w.call E Call.closeAudio
  w.call E Call.setupSave

/-! ## `Main::play` -/

/-- The method `int Main::play ()`, lines 325-395. -/
def Main.play (E : Env) (w : World) : World × Int :=
  match E.sceneCtor SceneFile.F_STARTUP_0SC with
  | some e => (w.call E (Call.newScene SceneFile.F_STARTUP_0SC false), e)
  | none =>
    let w := w.call E (Call.newScene SceneFile.F_STARTUP_0SC true)
    let w := w.call E (Call.scenePlay SceneFile.F_STARTUP_0SC)
    if E.scenePlay SceneFile.F_STARTUP_0SC = E.E_QUIT then
      (w.call E (Call.deleteScene SceneFile.F_STARTUP_0SC), E.E_NONE)
    else
    let w := w.call E (Call.deleteScene SceneFile.F_STARTUP_0SC)
    match E.menuCtor with
    | some e => (w.call E (Call.newMenu false), e)
    | none =>
      let w := w.call E (Call.newMenu true)
      let w := w.call E Call.menuMain
      if E.menuMain = E.E_QUIT then
        (w.call E Call.deleteMenu, E.E_NONE)
      else
      let w := w.call E Call.deleteMenu
      match E.sceneCtor SceneFile.F_END_0SC with
      | some e => (w.call E (Call.newScene SceneFile.F_END_0SC false), e)
      | none =>
        let w := w.call E (Call.newScene SceneFile.F_END_0SC true)
        let w := w.call E (Call.scenePlay SceneFile.F_END_0SC)
        let w := w.call E (Call.deleteScene SceneFile.F_END_0SC)
        (w, E.E_NONE)

/-! ## `loop` -/

/-- Lines 442-458, the body of the WIZ/GP2X block inside the event loop. -/
def wizVolume (E : Env) (event : Event) (w : World) : World :=
  if event.type = E.SDL_JOYBUTTONDOWN ∨ event.type = E.SDL_JOYBUTTONUP then
    let w :=
      if event.button = E.GP2X_BUTTON_VOLUP then
        if event.type = E.SDL_JOYBUTTONDOWN then { w with volume_direction := E.VOLUME_UP }
        else { w with volume_direction := E.VOLUME_NOCHG }
      else w
    if event.button = E.GP2X_BUTTON_VOLDOWN then
      if event.type = E.SDL_JOYBUTTONDOWN then { w with volume_direction := E.VOLUME_DOWN }
      else { w with volume_direction := E.VOLUME_NOCHG }
    else w
  else w

/-- Lines 431-461, `while (SDL_PollEvent(&event))`.  The first argument is the
queue that `SDL_PollEvent` reads; each iteration removes its head.  The result
is `some ret` when the loop ends in `return ret`, and `none` when the queue
has run empty. -/
def eventLoop (E : Env) (B : Build) (type : LoopType) :
    List Event → World → World × Option Int
  | [], w => ({ w with queue := [] }, none)
  | event :: rest, w =>
    let w := { w with queue := rest }
    if event.type = E.SDL_QUIT then (w, some E.E_QUIT) else
    let ret := E.controlsUpdate w.trace event type
    let w := w.call E (Call.controlsUpdate event type)
    if ret ≠ E.E_NONE then (w, some ret) else
    let w := w.call E (Call.videoUpdate event)
    let w := if B.WIZ_GP2X then wizVolume E event w else w
    eventLoop E B type rest w

/-- Lines 414-427: the tick count is updated, the frame rate limited and the
frame shown.  `prevTicks` is the `int` copy of `globalTicks`. -/
def frameTiming (E : Env) (paletteEffects : PaletteEffects) (w : World) : World :=
  let prevTicks : Int := w.globalTicks
  let (w, ticks) := getTicks E w
  let w := { w with globalTicks := ticks }
  let w :=
    if wrap32 ((w.globalTicks : Int) - prevTicks) < E.T_ACTIVE_FRAME then
      let w := w.call E (Call.delay (wrap32 ((E.T_ACTIVE_FRAME : Int) + prevTicks - w.globalTicks)))
      let (w, ticks) := getTicks E w
      { w with globalTicks := ticks }
    else w
  w.call E (Call.flip (wrap32 ((w.globalTicks : Int) - prevTicks)) paletteEffects)

/-- The function `int loop (LoopType type, PaletteEffect* paletteEffects)`,
lines 408-472. -/
def loop (E : Env) (B : Build) (type : LoopType) (paletteEffects : PaletteEffects)
    (w : World) : World × Int :=
  let w := frameTiming E paletteEffects w
  match eventLoop E B type w.queue w with
  | (w, some ret) => (w, ret)
  | (w, none) =>
    let w := w.call E Call.controlsLoop
    let w := if B.WIZ_GP2X then w.call E (Call.wizAdjustVolume w.volume_direction) else w
    (w, E.E_NONE)

/-! ## `main` -/

/-- The function `int main(int argc, char *argv[])`, lines 480-524.  An exception
that is not an `int` is not caught by `catch (int e)` and leaves `main`. -/
def main (E : Env) (B : Build) (argv0 : Str) (args : List Str) (w : World) :
    World × Except Thrown Int :=
  let w := w.call E (Call.sdlInit (decide (¬ E.sdlInit < 0)))
  if E.sdlInit < 0 then
    (w.call E Call.logError, .ok (-1))
  else
    match Main.Main E B argv0 args w with
    | (w, .error (Thrown.code _)) => (w.call E Call.sdlQuit, .ok (-1))
    | (w, .error t) => (w, .error t)
    | (w, .ok ()) =>
      let (w, ret) := Main.play E w
      let w := Main.dtor E B w
      (w.call E Call.sdlQuit, .ok ret)

/-! ## Example inputs -/

/-- A desktop build: no switch of `Build` is defined. -/
def desktopBuild : Build :=
  { DATAPATH := none, SYMBIAN32 := false, UIQ3 := false, KOpenJazzPath := [],
    WIN32 := false, HOMEDIR := false, LINUX_FHS := false, HOME := none,
    FULLSCREEN_ONLY := false, SCALE := false, WIZ_GP2X := false }

/-- A Linux build with `HOMEDIR` and `LINUX_FHS` defined, run with
`HOME=/home/jazz`. -/
def linuxBuild : Build :=
  { DATAPATH := none, SYMBIAN32 := false, UIQ3 := false, KOpenJazzPath := [],
    WIN32 := false, HOMEDIR := true, LINUX_FHS := true, HOME := some "/home/jazz".toList,
    FULLSCREEN_ONLY := false, SCALE := false, WIZ_GP2X := false }

/-- An environment in which every collaborator succeeds, no stage asks to quit,
`SDL_Delay (d)` takes exactly `d` ticks and every other call takes none.  The
numeric values of the constants are examples. -/
def quietEnv : Env :=
  { E_NONE := 0, E_QUIT := -6, E_VIDEO := -5, SW := 320, SH := 200,
    SDL_QUIT := 12, SDL_JOYBUTTONDOWN := 10, SDL_JOYBUTTONUP := 11,
    GP2X_BUTTON_VOLUP := 16, GP2X_BUTTON_VOLDOWN := 17,
    VOLUME_UP := 1, VOLUME_DOWN := -1, VOLUME_NOCHG := 0,
    T_ACTIVE_FRAME := 20,
    clockAfter := fun _ c t =>
      match c with
      | Call.delay d => t + d
      | _ => t,
    setupLoad := fun s => s,
    videoInit := fun _ _ _ => true,
    numJoysticks := 0, getScaleFactor := 1,
    panelOpen := none, fontCtor := fun _ => none,
    sceneCtor := fun _ => none, scenePlay := fun _ => 0,
    menuCtor := none, menuMain := 0, sdlInit := 0,
    controlsUpdate := fun _ _ _ => 0 }

/-- A world at tick `t` with no call made yet and the given pending events. -/
def World.start (t : Nat) (queue : List Event) : World :=
  { trace := [], now := t, queue := queue, globalTicks := 0, volume_direction := 0 }

/-! ## The search paths as the specification lists them -/

/-- The registrations that the positional arguments are to produce: every
argument that does not start with `-`, in command-line order, with the
separator appended unless it is already its last character. -/
def userPathCalls (slash : Char) (args : List Str) : List Call :=
  (args.filter (fun a => a.head? ≠ some '-')).map
    (fun a => Call.addDataSearchPath (if a.getLast? = some slash then a else a ++ [slash]))

/-- The home and configuration entries that a build registers: under `HOMEDIR`
the home directory with a separator appended; under `LINUX_FHS` the system data
directory, the user's data directory and the user's configuration directory.
A build with neither switch registers none. -/
def homeEntries (B : Build) : List Call :=
  match B.HOME with
  | none => []
  | some home =>
    (if B.HOMEDIR then [Call.addSearchPath (home ++ [pathSlash B])] else []) ++
    (if B.LINUX_FHS then
      [Call.addDataSearchPath "/usr/share/games/OpenJazz/".toList,
       Call.addDataSearchPath (home ++ "/.local/share/OpenJazz/".toList),
       Call.addConfigPath (home ++ "/.config/".toList)]
    else [])

/-! ## Resources of the start-up sequence -/

/-- The calls of lines 167-207 when `video.init` returns true: the network
address, `setup.load`, `video.init` with the loaded size and the chosen
full-screen mode, `video.setScaleFactor` in a `SCALE` build, the joystick count
and, when a joystick is present, `SDL_JoystickOpen`. -/
def windowCalls (E : Env) (B : Build) (options : List Str) : List Call :=
  [Call.createString, Call.setupLoad,
   Call.videoInit (loadSettings E B).screenW (loadSettings E B).screenH
     (fullscreenMode E B options) true] ++
  (if B.SCALE then [Call.setScaleFactor (loadSettings E B).scaleFactor] else []) ++
  [Call.numJoysticks] ++
  (if E.numJoysticks > 0 then [Call.joystickOpen] else [])


/-- The resources that the constructor acquires and rolls back: the audio
device, the panel pixel buffer and the fonts. -/
inductive Res
  | audio
  | pixels
  | font (f : FontId)
  deriving DecidableEq, Repr

/-- The resources acquired by a sequence of calls, in order of acquisition:
`openAudio`, `loadRLE` and every `new Font` that did not throw. -/
def acquired (cs : List Call) : List Res :=
  cs.filterMap fun c =>
    match c with
    | Call.openAudio => some Res.audio
    | Call.loadRLE => some Res.pixels
    | Call.newFont f true => some (Res.font f)
    | _ => none

/-- The resources released by a sequence of calls, in order of release:
`closeAudio`, `delete[] pixels` and every `delete` of a font. -/
def released (cs : List Call) : List Res :=
  cs.filterMap fun c =>
    match c with
    | Call.closeAudio => some Res.audio
    | Call.deletePixels => some Res.pixels
    | Call.deleteFont f => some (Res.font f)
    | _ => none

/-- The calls that register a search path. -/
def Call.isPath : Call → Bool
  | Call.addSearchPath _ => true
  | Call.addDataSearchPath _ => true
  | Call.addConfigPath _ => true
  | _ => false

/-- The release operations of shut-down: deleting the network handle or a font,
freeing the canvas, closing the audio device, saving the configuration and
`SDL_Quit`. -/
def Call.isShutdown : Call → Bool
  | Call.deleteNet => true
  | Call.deleteFont _ => true
  | Call.freeCanvas => true
  | Call.closeAudio => true
  | Call.setupSave => true
  | Call.sdlQuit => true
  | _ => false

/-- An environment in which only the construction of font `f` fails, with
code `e`. -/
def fontFails (f : FontId) (e : Int) : Env :=
  { quietEnv with fontCtor := fun g => if g = f then some e else none }

/-! ## The event loop as the specification describes it -/

/-- The two calls that `loop` makes for one event that is neither a quit event
nor refused by `controls.update`. -/
def eventCalls (type : LoopType) (e : Event) : List Call :=
  [Call.controlsUpdate e type, Call.videoUpdate e]

/-- The calls that hand an event to `controls` or `video`, and `controls.loop`. -/
def Call.isInput : Call → Bool
  | Call.controlsUpdate _ _ => true
  | Call.videoUpdate _ => true
  | Call.controlsLoop => true
  | _ => false

/-- An environment in which `controls.update` answers a key-down event (type 2)
with the key it carries, as in a typing loop, and any other event with
`E_NONE`. -/
def typingEnv : Env :=
  { quietEnv with
    controlsUpdate := fun _ e _ => if e.type = 2 then (e.payload : Int) else 0 }

/-- The calls of the timing part of `loop`: `SDL_GetTicks`, `SDL_Delay` and
`video.flip`. -/
def Call.isTiming : Call → Bool
  | Call.getTicks => true
  | Call.delay _ => true
  | Call.flip _ _ => true
  | _ => false

/-- The world after a first call of `loop` made at tick 1000, seven ticks
later: the state in which a second call of `loop` starts. -/
def sevenTicksLater : World :=
  { (loop quietEnv desktopBuild 0 0 (World.start 1000 [])).1 with now := 1007 }

/-- An environment in which only the named scene file fails to load, with
code `e`. -/
def sceneFails (f : SceneFile) (e : Int) : Env :=
  { quietEnv with sceneCtor := fun g => if g = f then some e else none }

/-- An environment in which the closing cutscene's `play()` returns `r` and
every other stage returns `E_NONE`. -/
def closingReturns (r : Int) : Env :=
  { quietEnv with
    scenePlay := fun f => if f = SceneFile.F_END_0SC then r else 0 }

/-! ## Lemmas on call histories -/

@[simp] theorem World.trace_call (E : Env) (w : World) (c : Call) :
    (w.call E c).trace = w.trace ++ [c] := rfl

@[simp] theorem World.queue_call (E : Env) (w : World) (c : Call) :
    (w.call E c).queue = w.queue := rfl

@[simp] theorem World.globalTicks_call (E : Env) (w : World) (c : Call) :
    (w.call E c).globalTicks = w.globalTicks := rfl

@[simp] theorem World.volume_call (E : Env) (w : World) (c : Call) :
    (w.call E c).volume_direction = w.volume_direction := rfl

@[simp] theorem World.calls_nil (E : Env) (w : World) : w.calls E [] = w := rfl

@[simp] theorem World.calls_cons (E : Env) (w : World) (c : Call) (cs : List Call) :
    w.calls E (c :: cs) = (w.call E c).calls E cs := rfl

theorem World.calls_append (E : Env) (w : World) (cs ds : List Call) :
    w.calls E (cs ++ ds) = (w.calls E cs).calls E ds := by
  simp [World.calls, List.foldl_append]

@[simp] theorem World.trace_calls (E : Env) (w : World) (cs : List Call) :
    (w.calls E cs).trace = w.trace ++ cs := by
  induction cs generalizing w with
  | nil => simp
  | cons c cs ih => simp [ih]

/-! ## Lemmas on the search paths -/

theorem findLastOfFrom_not_mem (c : Char) (s : List Char) (i : Nat) (found : Option Nat)
    (h : c ∉ s) : findLastOfFrom c s i found = found := by
  induction s generalizing i found with
  | nil => rfl
  | cons x xs ih =>
    have hx : x ≠ c := fun e => h (by simp [e])
    have hxs : c ∉ xs := fun m => h (List.mem_cons_of_mem _ m)
    simp [findLastOfFrom, hx, ih _ _ hxs]

theorem findLastOfFrom_split (c : Char) (pre post : List Char) (i : Nat)
    (found : Option Nat) (h : c ∉ post) :
    findLastOfFrom c (pre ++ c :: post) i found = some (i + pre.length) := by
  induction pre generalizing i found with
  | nil => simp [findLastOfFrom, findLastOfFrom_not_mem c post _ _ h]
  | cons x xs ih =>
    have e := ih (i + 1) (if x = c then some i else found)
    simp only [List.cons_append, findLastOfFrom, List.length_cons]
    rw [show i + (xs.length + 1) = i + 1 + xs.length by omega]
    exact e

theorem exists_last_split (c : Char) (s : List Char) (h : c ∈ s) :
    ∃ pre post, s = pre ++ c :: post ∧ c ∉ post := by
  induction s with
  | nil => simp at h
  | cons x xs ih =>
    by_cases hm : c ∈ xs
    · obtain ⟨pre, post, e, hp⟩ := ih hm
      exact ⟨x :: pre, post, by simp [e], hp⟩
    · have hx : c = x := by
        rcases List.mem_cons.mp h with e | m
        · exact e
        · exact absurd m hm
      exact ⟨[], xs, by simp [hx], hm⟩

theorem programPath_not_mem (E : Env) (slash : Char) (argv0 : Str) (w : World)
    (h : slash ∉ argv0) : programPath E slash argv0 w = w := by
  simp [programPath, findLastOf, findLastOfFrom_not_mem slash argv0 0 none h]

theorem programPath_split (E : Env) (slash : Char) (pre post : Str) (w : World)
    (h : slash ∉ post) :
    programPath E slash (pre ++ slash :: post) w
      = w.call E (Call.addDataSearchPath (pre ++ [slash])) := by
  have e : List.take (pre.length + 1) (pre ++ slash :: post) = pre ++ [slash] := by
    rw [List.take_append_eq_append_take]
    simp
  simp [programPath, findLastOf, findLastOfFrom_split slash pre post 0 none h, e]

theorem argLoop_nonempty (E : Env) (slash : Char) (args : List Str) (w : World)
    (options : List Str) (hne : ∀ a ∈ args, a ≠ []) :
    ∃ o, argLoop E slash args w options = (w.calls E (userPathCalls slash args), .ok o) := by
  induction args generalizing w options with
  | nil => exact ⟨options, rfl⟩
  | cons a rest ih =>
    have hrest : ∀ b ∈ rest, b ≠ [] := fun b hb => hne b (List.mem_cons_of_mem _ hb)
    cases a with
    | nil => exact absurd rfl (hne [] (List.mem_cons_self _ _))
    | cons c cs =>
      by_cases hc : c = '-'
      · obtain ⟨o, ho⟩ := ih w (if (c :: cs) ∈ options then options else options ++ [c :: cs]) hrest
        refine ⟨o, ?_⟩
        simp [argLoop, hc, userPathCalls] at ho ⊢
        exact ho
      · by_cases hl : (c :: cs).getLast? = some slash
        · obtain ⟨o, ho⟩ := ih (w.call E (Call.addDataSearchPath (c :: cs))) options hrest
          refine ⟨o, ?_⟩
          simp [argLoop, hc, hl, userPathCalls] at ho ⊢
          exact ho
        · obtain ⟨o, ho⟩ := ih (w.call E (Call.addDataSearchPath ((c :: cs) ++ [slash]))) options hrest
          refine ⟨o, ?_⟩
          simp [argLoop, hc, hl, userPathCalls] at ho ⊢
          exact ho

theorem homePaths_ok (E : Env) (B : Build) (w : World)
    (hhome : B.HOMEDIR = true ∨ B.LINUX_FHS = true → B.HOME ≠ none) :
    homePaths E B w = (w.calls E (homeEntries B), .ok ()) := by
  cases hH : B.HOME with
  | none =>
    have h1 : B.HOMEDIR = false := by
      cases hd : B.HOMEDIR with
      | false => rfl
      | true => exact absurd hH (hhome (Or.inl hd))
    have h2 : B.LINUX_FHS = false := by
      cases hd : B.LINUX_FHS with
      | false => rfl
      | true => exact absurd hH (hhome (Or.inr hd))
    simp [homePaths, homeDirPath, fhsPaths, homeEntries, hH, h1, h2]
  | some home =>
    by_cases h1 : B.HOMEDIR = true <;> by_cases h2 : B.LINUX_FHS = true <;>
      simp [homePaths, homeDirPath, fhsPaths, homeEntries, hH, h1, h2]

theorem determinePaths_eq (E : Env) (B : Build) (argv0 : Str) (args : List Str)
    (w : World) (hne : ∀ a ∈ args, a ≠ [])
    (hhome : B.HOMEDIR = true ∨ B.LINUX_FHS = true → B.HOME ≠ none) :
    ∃ o, determinePaths E B argv0 args w
      = ((((programPath E (pathSlash B) argv0
            ((w.calls E (hardCodedPaths B)).calls E (userPathCalls (pathSlash B) args))).calls E
            (homeEntries B)).call E (Call.addDataSearchPath [])), .ok o) := by
  obtain ⟨o, ho⟩ := argLoop_nonempty E (pathSlash B) args (w.calls E (hardCodedPaths B)) [] hne
  exact ⟨o, by simp [determinePaths, ho, homePaths_ok E B _ hhome]⟩

/-- With `HOME` unset in a build that reads it, the path-building step throws
at line 154, after the program directory and before the
current-working-directory entry. -/
theorem determinePaths_home_unset :
    (determinePaths quietEnv { linuxBuild with HOME := none } "./openjazz".toList []
        (World.start 0 [])).2 = .error Thrown.logic_error ∧
    (determinePaths quietEnv { linuxBuild with HOME := none } "./openjazz".toList []
        (World.start 0 [])).1.trace = [Call.addDataSearchPath "./".toList] :=
  ⟨rfl, by decide⟩

/-! ## The search paths (C7, C8) -/

/-- C7, as amended.  For every build, every `argv[0]` and every list of
non-empty arguments, with `HOME` set whenever the build reads it (`HOMEDIR` or
`LINUX_FHS`), the path-building step succeeds and registers, in this order: the
hard-coded paths of the build, every argument that does not start with `-` in
command-line order (with the separator appended unless the argument already
ends in it), the program directory `prog`, the home entries of the build, and
last the current-working-directory entry `""`.  `prog` is empty when `argv[0]`
holds no separator and otherwise is the single entry made of `argv[0]` up to
and including its last separator. -/
theorem searchPaths_order (E : Env) (B : Build) (argv0 : Str) (args : List Str)
    (w : World) (hne : ∀ a ∈ args, a ≠ [])
    (hhome : B.HOMEDIR = true ∨ B.LINUX_FHS = true → B.HOME ≠ none) :
    ∃ options prog,
      (determinePaths E B argv0 args w).2 = .ok options ∧
      (determinePaths E B argv0 args w).1.trace
        = w.trace ++ (hardCodedPaths B ++ userPathCalls (pathSlash B) args ++ prog
            ++ homeEntries B ++ [Call.addDataSearchPath []]) ∧
      ((pathSlash B ∉ argv0 ∧ prog = []) ∨
        ∃ pre post, argv0 = pre ++ pathSlash B :: post ∧ pathSlash B ∉ post ∧
          prog = [Call.addDataSearchPath (pre ++ [pathSlash B])]) := by
  obtain ⟨o, ho⟩ := determinePaths_eq E B argv0 args w hne hhome
  by_cases hs : pathSlash B ∈ argv0
  · obtain ⟨pre, post, e, hp⟩ := exists_last_split _ _ hs
    refine ⟨o, [Call.addDataSearchPath (pre ++ [pathSlash B])], ?_, ?_,
      Or.inr ⟨pre, post, e, hp, rfl⟩⟩
    · rw [ho]
    · rw [ho, e, programPath_split E _ pre post _ hp]
      simp
  · refine ⟨o, [], ?_, ?_, Or.inl ⟨hs, rfl⟩⟩
    · rw [ho]
    · rw [ho, programPath_not_mem E _ argv0 _ hs]
      simp

/-- Witness of `searchPaths_order`: `./bin/openjazz data -f mods/` in a Linux
build with `HOME=/home/jazz`. -/
theorem searchPaths_order_witness :
    (∀ a ∈ ["data".toList, "-f".toList, "mods/".toList], a ≠ []) ∧
    (linuxBuild.HOMEDIR = true ∨ linuxBuild.LINUX_FHS = true → linuxBuild.HOME ≠ none) ∧
    ∃ options prog,
      (determinePaths quietEnv linuxBuild "./bin/openjazz".toList
          ["data".toList, "-f".toList, "mods/".toList] (World.start 0 [])).2 = .ok options ∧
      (determinePaths quietEnv linuxBuild "./bin/openjazz".toList
          ["data".toList, "-f".toList, "mods/".toList] (World.start 0 [])).1.trace
        = (World.start 0 []).trace ++ (hardCodedPaths linuxBuild
            ++ userPathCalls (pathSlash linuxBuild) ["data".toList, "-f".toList, "mods/".toList]
            ++ prog ++ homeEntries linuxBuild ++ [Call.addDataSearchPath []]) ∧
      ((pathSlash linuxBuild ∉ "./bin/openjazz".toList ∧ prog = []) ∨
        ∃ pre post, "./bin/openjazz".toList = pre ++ pathSlash linuxBuild :: post ∧
          pathSlash linuxBuild ∉ post ∧
          prog = [Call.addDataSearchPath (pre ++ [pathSlash linuxBuild])]) :=
  ⟨by decide, by decide, searchPaths_order quietEnv linuxBuild "./bin/openjazz".toList
    ["data".toList, "-f".toList, "mods/".toList] (World.start 0 []) (by decide) (by decide)⟩

/-- C7 as stated fails: started as `openjazz data` (no separator in `argv[0]`),
the registrations are `data/` and `""` only, so no program directory stands
between the user path and the current-working-directory entry. -/
theorem searchPaths_order_counterexample :
    (determinePaths quietEnv desktopBuild "openjazz".toList ["data".toList]
        (World.start 0 [])).1.trace
      = [Call.addDataSearchPath "data/".toList, Call.addDataSearchPath []] ∧
    ¬ ∃ dir, (determinePaths quietEnv desktopBuild "openjazz".toList ["data".toList]
        (World.start 0 [])).1.trace
      = userPathCalls '/' ["data".toList] ++ [Call.addDataSearchPath dir]
          ++ homeEntries desktopBuild ++ [Call.addDataSearchPath []] := by
  have h : (determinePaths quietEnv desktopBuild "openjazz".toList ["data".toList]
        (World.start 0 [])).1.trace
      = [Call.addDataSearchPath "data/".toList, Call.addDataSearchPath []] := by decide
  refine ⟨h, ?_⟩
  rintro ⟨dir, hd⟩
  rw [h] at hd
  have hl := congrArg List.length hd
  simp [userPathCalls, homeEntries, desktopBuild] at hl

/-- C8, as amended.  For every build, every `argv[0]` and every list of
non-empty arguments, with `HOME` set whenever the build reads it (`HOMEDIR` or
`LINUX_FHS`), the path-building step succeeds and its last registration is the
current-working-directory entry `""`; when `argv[0]` holds a separator, the
registrations before it contain `argv[0]` cut after its last separator; when
`argv[0]` holds no separator, they are the hard-coded paths, the user paths and
the home entries only. -/
theorem searchPaths_invariant (E : Env) (B : Build) (argv0 : Str) (args : List Str)
    (w : World) (hne : ∀ a ∈ args, a ≠ [])
    (hhome : B.HOMEDIR = true ∨ B.LINUX_FHS = true → B.HOME ≠ none) :
    (∃ options, (determinePaths E B argv0 args w).2 = .ok options) ∧
    ∃ cs, (determinePaths E B argv0 args w).1.trace
        = w.trace ++ cs ++ [Call.addDataSearchPath []] ∧
      (∀ pre post, argv0 = pre ++ pathSlash B :: post → pathSlash B ∉ post →
        Call.addDataSearchPath (pre ++ [pathSlash B]) ∈ cs) ∧
      (pathSlash B ∉ argv0 →
        cs = hardCodedPaths B ++ userPathCalls (pathSlash B) args ++ homeEntries B) := by
  obtain ⟨o, ho⟩ := determinePaths_eq E B argv0 args w hne hhome
  refine ⟨⟨o, by rw [ho]⟩, ?_⟩
  by_cases hs : pathSlash B ∈ argv0
  · obtain ⟨pre, post, e, hp⟩ := exists_last_split _ _ hs
    refine ⟨hardCodedPaths B ++ userPathCalls (pathSlash B) args
      ++ [Call.addDataSearchPath (pre ++ [pathSlash B])] ++ homeEntries B, ?_, ?_, ?_⟩
    · rw [ho, e, programPath_split E _ pre post _ hp]
      simp
    · intro pre2 post2 e2 hp2
      have e3 : argv0.take (pre2.length + 1) = pre2 ++ [pathSlash B] := by
        rw [e2, List.take_append_eq_append_take]
        simp
      have e4 : argv0.take (pre.length + 1) = pre ++ [pathSlash B] := by
        rw [e, List.take_append_eq_append_take]
        simp
      have f2 := findLastOfFrom_split (pathSlash B) pre2 post2 0 none hp2
      have f1 := findLastOfFrom_split (pathSlash B) pre post 0 none hp
      rw [← e2] at f2
      rw [← e, f2] at f1
      have hlen : pre2.length = pre.length := by simpa using f1
      rw [hlen, e4] at e3
      rw [← e3]
      simp
    · intro hn
      exact absurd hs hn
  · refine ⟨hardCodedPaths B ++ userPathCalls (pathSlash B) args ++ homeEntries B, ?_, ?_, ?_⟩
    · rw [ho, programPath_not_mem E _ argv0 _ hs]
      simp
    · intro pre post e _
      exact absurd (by simp [e]) hs
    · intro _
      rfl

/-- Witness of `searchPaths_invariant`: `/usr/games/openjazz -f` in a Linux
build with `HOME=/home/jazz`. -/
theorem searchPaths_invariant_witness :
    (∀ a ∈ ["-f".toList], a ≠ []) ∧
    (linuxBuild.HOMEDIR = true ∨ linuxBuild.LINUX_FHS = true → linuxBuild.HOME ≠ none) ∧
    ((∃ options, (determinePaths quietEnv linuxBuild "/usr/games/openjazz".toList
        ["-f".toList] (World.start 0 [])).2 = .ok options) ∧
    ∃ cs, (determinePaths quietEnv linuxBuild "/usr/games/openjazz".toList
        ["-f".toList] (World.start 0 [])).1.trace
        = (World.start 0 []).trace ++ cs ++ [Call.addDataSearchPath []] ∧
      (∀ pre post, "/usr/games/openjazz".toList = pre ++ pathSlash linuxBuild :: post →
        pathSlash linuxBuild ∉ post →
        Call.addDataSearchPath (pre ++ [pathSlash linuxBuild]) ∈ cs) ∧
      (pathSlash linuxBuild ∉ "/usr/games/openjazz".toList →
        cs = hardCodedPaths linuxBuild
          ++ userPathCalls (pathSlash linuxBuild) ["-f".toList] ++ homeEntries linuxBuild)) :=
  ⟨by decide, by decide, searchPaths_invariant quietEnv linuxBuild "/usr/games/openjazz".toList
    ["-f".toList] (World.start 0 []) (by decide) (by decide)⟩

/-- C8 as stated fails: started as `openjazz -f` (no separator in `argv[0]`),
the only registration is the current-working-directory entry, so no
program-directory entry precedes it. -/
theorem searchPaths_invariant_counterexample :
    (determinePaths quietEnv desktopBuild "openjazz".toList ["-f".toList]
        (World.start 0 [])).1.trace = [Call.addDataSearchPath []] ∧
    ¬ ∃ dir before between,
      (determinePaths quietEnv desktopBuild "openjazz".toList ["-f".toList]
        (World.start 0 [])).1.trace
        = before ++ Call.addDataSearchPath dir :: between ++ [Call.addDataSearchPath []] := by
  have h : (determinePaths quietEnv desktopBuild "openjazz".toList ["-f".toList]
        (World.start 0 [])).1.trace = [Call.addDataSearchPath []] := by decide
  refine ⟨h, ?_⟩
  rintro ⟨dir, before, between, hd⟩
  rw [h] at hd
  have hl := congrArg List.length hd
  simp at hl
  omega

/-! ## `Main::play` (C2, C3, C10) -/

/-- C2.  Quit handling of `Main::play`.  First part: when the opening cutscene is
constructed and its `play()` returns `E_QUIT`, `play` returns `E_NONE` and its
calls are exactly: construct the opening scene, play it, delete it.  Second
part: when the opening cutscene returns anything else, the menu is constructed
and its `main()` returns `E_QUIT`, `play` returns `E_NONE` and its calls are
exactly: construct, play and delete the opening scene, construct, run and
delete the menu.  In neither case is the closing cutscene constructed or run. -/
theorem play_quit (E : Env) (w : World) :
    (E.sceneCtor SceneFile.F_STARTUP_0SC = none →
      E.scenePlay SceneFile.F_STARTUP_0SC = E.E_QUIT →
        (Main.play E w).2 = E.E_NONE ∧
        (Main.play E w).1.trace = w.trace ++
          [Call.newScene SceneFile.F_STARTUP_0SC true,
           Call.scenePlay SceneFile.F_STARTUP_0SC,
           Call.deleteScene SceneFile.F_STARTUP_0SC]) ∧
    (E.sceneCtor SceneFile.F_STARTUP_0SC = none →
      E.scenePlay SceneFile.F_STARTUP_0SC ≠ E.E_QUIT →
      E.menuCtor = none →
      E.menuMain = E.E_QUIT →
        (Main.play E w).2 = E.E_NONE ∧
        (Main.play E w).1.trace = w.trace ++
          [Call.newScene SceneFile.F_STARTUP_0SC true,
           Call.scenePlay SceneFile.F_STARTUP_0SC,
           Call.deleteScene SceneFile.F_STARTUP_0SC,
           Call.newMenu true, Call.menuMain, Call.deleteMenu]) := by
  refine ⟨?_, ?_⟩
  · intro h1 h2
    simp [Main.play, h1, h2]
  · intro h1 h2 h3 h4
    simp [Main.play, h1, h2, h3, h4]

/-- Witness of `play_quit`: an opening cutscene that returns `E_QUIT`, and a
menu that returns `E_QUIT` after an opening cutscene that returned `E_NONE`. -/
theorem play_quit_witness :
    ((Main.play { quietEnv with scenePlay := fun _ => -6 } (World.start 0 [])).2 = 0 ∧
      (Main.play { quietEnv with scenePlay := fun _ => -6 } (World.start 0 [])).1.trace
        = [] ++ [Call.newScene SceneFile.F_STARTUP_0SC true,
           Call.scenePlay SceneFile.F_STARTUP_0SC,
           Call.deleteScene SceneFile.F_STARTUP_0SC]) ∧
    ((Main.play { quietEnv with menuMain := -6 } (World.start 0 [])).2 = 0 ∧
      (Main.play { quietEnv with menuMain := -6 } (World.start 0 [])).1.trace
        = [] ++ [Call.newScene SceneFile.F_STARTUP_0SC true,
           Call.scenePlay SceneFile.F_STARTUP_0SC,
           Call.deleteScene SceneFile.F_STARTUP_0SC,
           Call.newMenu true, Call.menuMain, Call.deleteMenu]) :=
  ⟨(play_quit { quietEnv with scenePlay := fun _ => -6 } (World.start 0 [])).1 rfl rfl,
   (play_quit { quietEnv with menuMain := -6 } (World.start 0 [])).2 rfl (by decide) rfl rfl⟩

/-- C3.  Construction failure in `Main::play`, for each of the three stages and
every error code `e`.  If the opening cutscene's constructor throws `e`, `play`
returns `e` after that single call.  If the opening cutscene ran without
`E_QUIT` and the menu's constructor throws `e`, `play` returns `e`, the opening
scene having been deleted before, and the menu is not run.  If the opening
cutscene and the menu ran without `E_QUIT` and the closing cutscene's
constructor throws `e`, `play` returns `e`, both earlier objects having been
deleted before, and the closing cutscene is not played. -/
theorem play_construction_failure (E : Env) (w : World) (e : Int) :
    (E.sceneCtor SceneFile.F_STARTUP_0SC = some e →
        (Main.play E w).2 = e ∧
        (Main.play E w).1.trace = w.trace ++
          [Call.newScene SceneFile.F_STARTUP_0SC false]) ∧
    (E.sceneCtor SceneFile.F_STARTUP_0SC = none →
      E.scenePlay SceneFile.F_STARTUP_0SC ≠ E.E_QUIT →
      E.menuCtor = some e →
        (Main.play E w).2 = e ∧
        (Main.play E w).1.trace = w.trace ++
          [Call.newScene SceneFile.F_STARTUP_0SC true,
           Call.scenePlay SceneFile.F_STARTUP_0SC,
           Call.deleteScene SceneFile.F_STARTUP_0SC,
           Call.newMenu false]) ∧
    (E.sceneCtor SceneFile.F_STARTUP_0SC = none →
      E.scenePlay SceneFile.F_STARTUP_0SC ≠ E.E_QUIT →
      E.menuCtor = none →
      E.menuMain ≠ E.E_QUIT →
      E.sceneCtor SceneFile.F_END_0SC = some e →
        (Main.play E w).2 = e ∧
        (Main.play E w).1.trace = w.trace ++
          [Call.newScene SceneFile.F_STARTUP_0SC true,
           Call.scenePlay SceneFile.F_STARTUP_0SC,
           Call.deleteScene SceneFile.F_STARTUP_0SC,
           Call.newMenu true, Call.menuMain, Call.deleteMenu,
           Call.newScene SceneFile.F_END_0SC false]) := by
  refine ⟨?_, ?_, ?_⟩
  · intro h1
    simp [Main.play, h1]
  · intro h1 h2 h3
    simp [Main.play, h1, h2, h3]
  · intro h1 h2 h3 h4 h5
    simp [Main.play, h1, h2, h3, h4, h5]

/-- Witness of `play_construction_failure`: each of the three constructors in
turn throws the code `-7`. -/
theorem play_construction_failure_witness :
    ((Main.play (sceneFails SceneFile.F_STARTUP_0SC (-7)) (World.start 0 [])).2 = -7 ∧
      (Main.play (sceneFails SceneFile.F_STARTUP_0SC (-7)) (World.start 0 [])).1.trace
        = [] ++ [Call.newScene SceneFile.F_STARTUP_0SC false]) ∧
    ((Main.play { quietEnv with menuCtor := some (-7) } (World.start 0 [])).2 = -7 ∧
      (Main.play { quietEnv with menuCtor := some (-7) } (World.start 0 [])).1.trace
        = [] ++ [Call.newScene SceneFile.F_STARTUP_0SC true,
           Call.scenePlay SceneFile.F_STARTUP_0SC,
           Call.deleteScene SceneFile.F_STARTUP_0SC,
           Call.newMenu false]) ∧
    ((Main.play (sceneFails SceneFile.F_END_0SC (-7)) (World.start 0 [])).2 = -7 ∧
      (Main.play (sceneFails SceneFile.F_END_0SC (-7)) (World.start 0 [])).1.trace
        = [] ++ [Call.newScene SceneFile.F_STARTUP_0SC true,
           Call.scenePlay SceneFile.F_STARTUP_0SC,
           Call.deleteScene SceneFile.F_STARTUP_0SC,
           Call.newMenu true, Call.menuMain, Call.deleteMenu,
           Call.newScene SceneFile.F_END_0SC false]) :=
  ⟨(play_construction_failure (sceneFails SceneFile.F_STARTUP_0SC (-7)) (World.start 0 [])
      (-7)).1 rfl,
   (play_construction_failure { quietEnv with menuCtor := some (-7) } (World.start 0 [])
      (-7)).2.1 rfl (by decide) rfl,
   (play_construction_failure (sceneFails SceneFile.F_END_0SC (-7)) (World.start 0 [])
      (-7)).2.2 rfl (by decide) rfl (by decide) rfl⟩

/-- C10.  When all three stages are constructed and neither the opening cutscene
nor the menu returns `E_QUIT`, `Main::play` constructs, plays and deletes the
closing cutscene exactly once and returns `E_NONE`, whatever the closing
cutscene's `play()` returns (`r` is that value). -/
theorem play_closing_outcome_discarded (E : Env) (w : World) (r : Int)
    (h1 : E.sceneCtor SceneFile.F_STARTUP_0SC = none)
    (h2 : E.scenePlay SceneFile.F_STARTUP_0SC ≠ E.E_QUIT)
    (h3 : E.menuCtor = none)
    (h4 : E.menuMain ≠ E.E_QUIT)
    (h5 : E.sceneCtor SceneFile.F_END_0SC = none)
    (_h6 : E.scenePlay SceneFile.F_END_0SC = r) :
    (Main.play E w).2 = E.E_NONE ∧
    (Main.play E w).1.trace = w.trace ++
      [Call.newScene SceneFile.F_STARTUP_0SC true,
       Call.scenePlay SceneFile.F_STARTUP_0SC,
       Call.deleteScene SceneFile.F_STARTUP_0SC,
       Call.newMenu true, Call.menuMain, Call.deleteMenu,
       Call.newScene SceneFile.F_END_0SC true,
       Call.scenePlay SceneFile.F_END_0SC,
       Call.deleteScene SceneFile.F_END_0SC] := by
  simp [Main.play, h1, h2, h3, h4, h5]

/-- Witness of `play_closing_outcome_discarded`: the closing cutscene returns
`E_QUIT`, and `play` still returns `E_NONE`. -/
theorem play_closing_outcome_discarded_witness :
    (closingReturns (-6)).scenePlay SceneFile.F_END_0SC = (closingReturns (-6)).E_QUIT ∧
    (Main.play (closingReturns (-6)) (World.start 0 [])).2 = 0 ∧
    (Main.play (closingReturns (-6)) (World.start 0 [])).1.trace = [] ++
      [Call.newScene SceneFile.F_STARTUP_0SC true,
       Call.scenePlay SceneFile.F_STARTUP_0SC,
       Call.deleteScene SceneFile.F_STARTUP_0SC,
       Call.newMenu true, Call.menuMain, Call.deleteMenu,
       Call.newScene SceneFile.F_END_0SC true,
       Call.scenePlay SceneFile.F_END_0SC,
       Call.deleteScene SceneFile.F_END_0SC] :=
  ⟨rfl, play_closing_outcome_discarded (closingReturns (-6)) (World.start 0 []) (-6)
    rfl (by decide) rfl (by decide) rfl rfl⟩

/-! ## Lemmas on the constructor -/

theorem argLoop_trace (E : Env) (slash : Char) (args : List Str) (w : World)
    (options : List Str) :
    ∃ ps, (argLoop E slash args w options).1.trace = w.trace ++ ps ∧
      ∀ c ∈ ps, c.isPath = true := by
  induction args generalizing w options with
  | nil => exact ⟨[], by simp [argLoop], by simp⟩
  | cons a rest ih =>
    cases a with
    | nil => exact ⟨[], by simp [argLoop], by simp⟩
    | cons c cs =>
      by_cases hc : c = '-'
      · obtain ⟨ps, h1, h2⟩ :=
          ih w (if (c :: cs) ∈ options then options else options ++ [c :: cs])
        exact ⟨ps, by simpa [argLoop, hc] using h1, h2⟩
      · by_cases hl : (c :: cs).getLast? = some slash
        · obtain ⟨ps, h1, h2⟩ := ih (w.call E (Call.addDataSearchPath (c :: cs))) options
          refine ⟨Call.addDataSearchPath (c :: cs) :: ps, ?_, ?_⟩
          · simpa [argLoop, hc, hl] using h1
          · intro x hx
            rcases List.mem_cons.mp hx with e | m
            · rw [e]; rfl
            · exact h2 x m
        · obtain ⟨ps, h1, h2⟩ :=
            ih (w.call E (Call.addDataSearchPath ((c :: cs) ++ [slash]))) options
          refine ⟨Call.addDataSearchPath ((c :: cs) ++ [slash]) :: ps, ?_, ?_⟩
          · simpa [argLoop, hc, hl] using h1
          · intro x hx
            rcases List.mem_cons.mp hx with e | m
            · rw [e]; rfl
            · exact h2 x m

theorem argLoop_error (E : Env) (slash : Char) (args : List Str) (w : World)
    (options : List Str) (t : Thrown)
    (h : (argLoop E slash args w options).2 = .error t) : t = Thrown.out_of_range := by
  induction args generalizing w options with
  | nil => simp [argLoop] at h
  | cons a rest ih =>
    cases a with
    | nil =>
      simp [argLoop] at h
      exact h.symm
    | cons c cs =>
      by_cases hc : c = '-'
      · simp only [argLoop, List.head?_cons, hc, ne_eq, not_true_eq_false, if_false] at h
        exact ih _ _ h
      · by_cases hl : (c :: cs).getLast? = some slash
        · simp only [argLoop, List.head?_cons, hc, ne_eq, not_false_eq_true, if_true, hl,
            not_true_eq_false, if_false] at h
          exact ih _ _ h
        · simp only [argLoop, List.head?_cons, hc, ne_eq, not_false_eq_true, if_true, hl] at h
          exact ih _ _ h

theorem hardCodedPaths_isPath (B : Build) : ∀ c ∈ hardCodedPaths B, c.isPath = true := by
  intro c hc
  unfold hardCodedPaths at hc
  rcases List.mem_append.mp hc with h | h
  · cases hd : B.DATAPATH with
    | none => simp [hd] at h
    | some d =>
      simp [hd] at h
      rw [h]; rfl
  · by_cases hs : B.SYMBIAN32 = true
    · by_cases hu : B.UIQ3 = true
      · simp [hs, hu] at h
        rcases h with h | h <;> (rw [h]; rfl)
      · simp [hs, hu] at h
        rcases h with h | h <;> (rw [h]; rfl)
    · simp [hs] at h

theorem homePaths_trace (E : Env) (B : Build) (w : World) :
    (∃ ps, (homePaths E B w).1.trace = w.trace ++ ps ∧ ∀ c ∈ ps, c.isPath = true) ∧
    ∀ t, (homePaths E B w).2 = .error t → t = Thrown.logic_error := by
  cases hH : B.HOME with
  | none =>
    by_cases h1 : B.HOMEDIR = true <;> by_cases h2 : B.LINUX_FHS = true <;>
      simp [homePaths, homeDirPath, fhsPaths, hH, h1, h2, Call.isPath]
  | some home =>
    by_cases h1 : B.HOMEDIR = true <;> by_cases h2 : B.LINUX_FHS = true <;>
      simp [homePaths, homeDirPath, fhsPaths, hH, h1, h2, Call.isPath]

theorem programPath_trace (E : Env) (slash : Char) (argv0 : Str) (w : World) :
    ∃ ps, (programPath E slash argv0 w).trace = w.trace ++ ps ∧
      ∀ c ∈ ps, c.isPath = true := by
  unfold programPath
  cases findLastOf argv0 slash with
  | none => exact ⟨[], by simp, by simp⟩
  | some i =>
    refine ⟨[Call.addDataSearchPath (argv0.take (i + 1))], by simp, ?_⟩
    intro c hc
    rw [List.mem_singleton.mp hc]; rfl

theorem determinePaths_trace (E : Env) (B : Build) (argv0 : Str) (args : List Str)
    (w : World) :
    (∃ ps, (determinePaths E B argv0 args w).1.trace = w.trace ++ ps ∧
      ∀ c ∈ ps, c.isPath = true) ∧
    ∀ t, (determinePaths E B argv0 args w).2 = .error t → ∀ e, t ≠ Thrown.code e := by
  obtain ⟨ps, h1, h2⟩ := argLoop_trace E (pathSlash B) args (w.calls E (hardCodedPaths B)) []
  have herr := argLoop_error E (pathSlash B) args (w.calls E (hardCodedPaths B)) []
  rcases hr : argLoop E (pathSlash B) args (w.calls E (hardCodedPaths B)) [] with ⟨w1, t | o⟩
  · rw [hr] at h1 herr
    simp only [determinePaths, hr]
    refine ⟨⟨hardCodedPaths B ++ ps, by simpa [List.append_assoc] using h1, ?_⟩, ?_⟩
    · intro c hc
      rcases List.mem_append.mp hc with m | m
      · exact hardCodedPaths_isPath B c m
      · exact h2 c m
    · intro t2 h e he
      have := herr t2 h
      rw [he] at this
      cases this
  · rw [hr] at h1
    simp only [determinePaths, hr]
    obtain ⟨qs, h3, h4⟩ := programPath_trace E (pathSlash B) argv0 w1
    obtain ⟨⟨hs, h5, h6⟩, h7⟩ := homePaths_trace E B (programPath E (pathSlash B) argv0 w1)
    simp at h1
    rcases hh : homePaths E B (programPath E (pathSlash B) argv0 w1) with ⟨w2, t | u⟩
    · rw [hh] at h5 h7
      refine ⟨⟨hardCodedPaths B ++ ps ++ qs ++ hs, ?_, ?_⟩, ?_⟩
      · simp at h5
        simp [h5, h3, h1, List.append_assoc]
      · intro c hc
        simp only [List.mem_append] at hc
        rcases hc with ((m | m) | m) | m
        · exact hardCodedPaths_isPath B c m
        · exact h2 c m
        · exact h4 c m
        · exact h6 c m
      · intro t2 h e he
        have := h7 t rfl
        simp at h
        rw [← h, this] at he
        cases he
    · rw [hh] at h5
      refine ⟨⟨hardCodedPaths B ++ ps ++ qs ++ hs ++ [Call.addDataSearchPath []], ?_, ?_⟩, ?_⟩
      · simp at h5
        simp [h5, h3, h1, List.append_assoc]
      · intro c hc
        simp only [List.mem_append, List.mem_singleton] at hc
        rcases hc with (((m | m) | m) | m) | m
        · exact hardCodedPaths_isPath B c m
        · exact h2 c m
        · exact h4 c m
        · exact h6 c m
        · rw [m]; rfl
      · intro t2 h
        simp at h

theorem acquired_of_isPath (ps : List Call) (h : ∀ c ∈ ps, c.isPath = true) :
    acquired ps = [] ∧ released ps = [] := by
  induction ps with
  | nil => exact ⟨rfl, rfl⟩
  | cons c cs ih =>
    obtain ⟨h1, h2⟩ := ih (fun x hx => h x (List.mem_cons_of_mem _ hx))
    have hc := h c (List.mem_cons_self _ _)
    unfold acquired at h1 ⊢
    unfold released at h2 ⊢
    cases c <;> first
      | exact ⟨by rw [List.filterMap_cons]; exact h1, by rw [List.filterMap_cons]; exact h2⟩
      | cases hc

theorem shutdown_of_isPath (c : Call) (h : c.isPath = true) : c.isShutdown = false := by
  cases c <;> first
    | rfl
    | cases h

theorem constructFonts_spec (E : Env) (fs : List FontId) (w : World) (built : List FontId) :
    (∃ pre f post e, fs = pre ++ f :: post ∧ (∀ g ∈ pre, E.fontCtor g = none) ∧
      E.fontCtor f = some e ∧
      constructFonts E fs w built
        = (w.calls E (pre.map (fun g => Call.newFont g true) ++ [Call.newFont f false]),
            built ++ pre, some e)) ∨
    ((∀ g ∈ fs, E.fontCtor g = none) ∧
      constructFonts E fs w built
        = (w.calls E (fs.map (fun g => Call.newFont g true)), built ++ fs, none)) := by
  induction fs generalizing w built with
  | nil => exact Or.inr ⟨by simp, by simp [constructFonts]⟩
  | cons f rest ih =>
    cases hf : E.fontCtor f with
    | some e =>
      exact Or.inl ⟨[], f, rest, e, rfl, by simp, hf, by simp [constructFonts, hf]⟩
    | none =>
      rcases ih (w.call E (Call.newFont f true)) (built ++ [f]) with
        ⟨pre, g, post, e, h1, h2, h3, h4⟩ | ⟨h1, h2⟩
      · refine Or.inl ⟨f :: pre, g, post, e, by simp [h1], ?_, h3, ?_⟩
        · intro x hx
          rcases List.mem_cons.mp hx with e1 | m
          · rw [e1]; exact hf
          · exact h2 x m
        · simp [constructFonts, hf, h4]
      · refine Or.inr ⟨?_, ?_⟩
        · intro x hx
          rcases List.mem_cons.mp hx with e1 | m
          · rw [e1]; exact hf
          · exact h1 x m
        · simp [constructFonts, hf, h2]

theorem deleteBuiltFonts_built (E : Env) (w : World) (pre post : List FontId) (f : FontId)
    (h : fontOrder = pre ++ f :: post) :
    deleteBuiltFonts E pre w = w.calls E (pre.map Call.deleteFont) := by
  have hl : pre.length ≤ 6 := by
    have := congrArg List.length h
    simp [fontOrder] at this
    omega
  have hp : pre = fontOrder.take pre.length := by
    rw [h]; simp
  generalize pre.length = k at hl hp
  subst hp
  interval_cases k <;> simp [fontOrder, deleteBuiltFonts]

theorem openWindow_fail (E : Env) (B : Build) (options : List Str) (w : World)
    (h : E.videoInit (loadSettings E B).screenW (loadSettings E B).screenH
      (fullscreenMode E B options) = false) :
    openWindow E B options w
      = (w.calls E [Call.createString, Call.setupLoad,
          Call.videoInit (loadSettings E B).screenW (loadSettings E B).screenH
            (fullscreenMode E B options) false], .error (Thrown.code E.E_VIDEO)) := by
  simp [openWindow, h]

theorem openWindow_ok (E : Env) (B : Build) (options : List Str) (w : World)
    (h : E.videoInit (loadSettings E B).screenW (loadSettings E B).screenH
      (fullscreenMode E B options) = true) :
    openWindow E B options w = (w.calls E (windowCalls E B options), .ok ()) := by
  by_cases hS : B.SCALE = true <;> by_cases hJ : E.numJoysticks > 0 <;>
    simp [openWindow, windowCalls, h, hS, hJ]

theorem windowCalls_quiet (E : Env) (B : Build) (options : List Str) :
    acquired (windowCalls E B options) = [] ∧ released (windowCalls E B options) = [] ∧
    ∀ c ∈ windowCalls E B options, c.isShutdown = false := by
  by_cases hS : B.SCALE = true <;> by_cases hJ : E.numJoysticks > 0 <;>
    simp [windowCalls, hS, hJ, acquired, released, Call.isShutdown]

theorem openWindow_trace (E : Env) (B : Build) (options : List Str) (w : World) :
    (∃ cs, (openWindow E B options w).1.trace = w.trace ++ cs ∧
      acquired cs = [] ∧ released cs = [] ∧ ∀ c ∈ cs, c.isShutdown = false) ∧
    ∀ t, (openWindow E B options w).2 = .error t → t = Thrown.code E.E_VIDEO := by
  cases h : E.videoInit (loadSettings E B).screenW (loadSettings E B).screenH
      (fullscreenMode E B options) with
  | false =>
    rw [openWindow_fail E B options w h]
    refine ⟨⟨_, by simp; rfl, by simp [acquired], by simp [released],
      by simp [Call.isShutdown]⟩, ?_⟩
    intro t ht
    simpa using ht.symm
  | true =>
    rw [openWindow_ok E B options w h]
    obtain ⟨q1, q2, q3⟩ := windowCalls_quiet E B options
    refine ⟨⟨windowCalls E B options, by simp, q1, q2, q3⟩, ?_⟩
    intro t ht
    simp at ht

theorem constructFonts_fail (E : Env) (pre post : List FontId) (f : FontId) (e : Int)
    (w : World) (built : List FontId)
    (h2 : ∀ g ∈ pre, E.fontCtor g = none) (h3 : E.fontCtor f = some e) :
    constructFonts E (pre ++ f :: post) w built
      = (w.calls E (pre.map (fun g => Call.newFont g true) ++ [Call.newFont f false]),
          built ++ pre, some e) := by
  induction pre generalizing w built with
  | nil => simp [constructFonts, h3]
  | cons x xs ih =>
    have hx : E.fontCtor x = none := h2 x (List.mem_cons_self _ _)
    have hxs : ∀ g ∈ xs, E.fontCtor g = none := fun g hg => h2 g (List.mem_cons_of_mem _ hg)
    simp [constructFonts, hx, ih _ _ hxs]

theorem loadResources_panel (E : Env) (w : World) (e : Int) (hp : E.panelOpen = some e) :
    loadResources E w
      = (w.calls E [Call.openAudio, Call.newFile false, Call.closeAudio],
          .error (Thrown.code e)) := by
  simp [loadResources, hp]

theorem loadResources_font (E : Env) (w : World) (e : Int) (pre post : List FontId)
    (f : FontId) (hp : E.panelOpen = none) (h1 : fontOrder = pre ++ f :: post)
    (h2 : ∀ g ∈ pre, E.fontCtor g = none) (h3 : E.fontCtor f = some e) :
    loadResources E w
      = (w.calls E ([Call.openAudio, Call.newFile true, Call.loadRLE, Call.deleteFile]
            ++ pre.map (fun g => Call.newFont g true) ++ [Call.newFont f false]
            ++ pre.map Call.deleteFont ++ [Call.deletePixels, Call.closeAudio]),
          .error (Thrown.code e)) := by
  have hc := constructFonts_fail E pre post f e
    ((((w.call E Call.openAudio).call E (Call.newFile true)).call E Call.loadRLE).call E
      Call.deleteFile) [] h2 h3
  rw [← h1] at hc
  simp only [loadResources, hp, hc, List.nil_append]
  rw [deleteBuiltFonts_built E _ pre post f h1]
  simp [World.calls_append]

theorem loadResources_ok (E : Env) (w : World) (h : (loadResources E w).2 = .ok ()) :
    (loadResources E w).1.trace
      = w.trace ++ ([Call.openAudio, Call.newFile true, Call.loadRLE, Call.deleteFile]
          ++ fontOrder.map (fun g => Call.newFont g true)
          ++ [Call.deletePixels, Call.getTicks, Call.newNetwork]) := by
  cases hp : E.panelOpen with
  | some e =>
    simp only [loadResources, hp] at h
    simp at h
  | none =>
    rcases constructFonts_spec E fontOrder
      ((((w.call E Call.openAudio).call E (Call.newFile true)).call E Call.loadRLE).call E
        Call.deleteFile) [] with ⟨pre, f, post, e, _, _, _, h4⟩ | ⟨_, h2⟩
    · simp only [loadResources, hp, h4] at h
      simp at h
    · simp only [loadResources, hp, h2, getTicks]
      simp

theorem play_trace (E : Env) (w : World) :
    ∃ cs, (Main.play E w).1.trace = w.trace ++ cs ∧ ∀ c ∈ cs, c.isShutdown = false := by
  cases h1 : E.sceneCtor SceneFile.F_STARTUP_0SC with
  | some e => exact ⟨[Call.newScene SceneFile.F_STARTUP_0SC false],
      by simp [Main.play, h1], by simp [Call.isShutdown]⟩
  | none =>
    by_cases h2 : E.scenePlay SceneFile.F_STARTUP_0SC = E.E_QUIT
    · exact ⟨_, by simp [Main.play, h1, h2]; rfl, by simp [Call.isShutdown]⟩
    · cases h3 : E.menuCtor with
      | some e => exact ⟨_, by simp [Main.play, h1, h2, h3]; rfl, by simp [Call.isShutdown]⟩
      | none =>
        by_cases h4 : E.menuMain = E.E_QUIT
        · exact ⟨_, by simp [Main.play, h1, h2, h3, h4]; rfl, by simp [Call.isShutdown]⟩
        · cases h5 : E.sceneCtor SceneFile.F_END_0SC with
          | some e =>
            exact ⟨_, by simp [Main.play, h1, h2, h3, h4, h5]; rfl, by simp [Call.isShutdown]⟩
          | none =>
            exact ⟨_, by simp [Main.play, h1, h2, h3, h4, h5]; rfl, by simp [Call.isShutdown]⟩

theorem Main_unfold (E : Env) (B : Build) (argv0 : Str) (args : List Str) (w : World) :
    (∃ t, (determinePaths E B argv0 args w).2 = .error t ∧
      Main.Main E B argv0 args w = ((determinePaths E B argv0 args w).1, .error t)) ∨
    (∃ options, (determinePaths E B argv0 args w).2 = .ok options ∧
      ((∃ t, (openWindow E B options (determinePaths E B argv0 args w).1).2 = .error t ∧
        Main.Main E B argv0 args w
          = ((openWindow E B options (determinePaths E B argv0 args w).1).1, .error t)) ∨
       ((openWindow E B options (determinePaths E B argv0 args w).1).2 = .ok () ∧
        Main.Main E B argv0 args w
          = loadResources E (openWindow E B options (determinePaths E B argv0 args w).1).1))) := by
  rcases hd : determinePaths E B argv0 args w with ⟨w1, t | options⟩
  · exact Or.inl ⟨t, rfl, by simp [Main.Main, hd]⟩
  · refine Or.inr ⟨options, rfl, ?_⟩
    rcases ho : openWindow E B options w1 with ⟨w2, t | u⟩
    · exact Or.inl ⟨t, rfl, by simp [Main.Main, hd, ho]⟩
    · exact Or.inr ⟨rfl, by simp [Main.Main, hd, ho]⟩

/-! ## Roll-back in the constructor (C1) -/

/-- C1, as amended.  Let the arguments be non-empty and `HOME` be set whenever
the build reads it, so that the path-building step completes, with option set
`options` and registrations `paths`.  For every injected failure point, the
constructor throws the code raised there and its calls are exactly as follows.
(1) `video.init` returns false: the code is `E_VIDEO`, and after `paths` the
calls are `createString`, `setup.load` and the failed `video.init`; nothing is
acquired or released.  (2) `video.init` returns true and opening the panel file
throws `e`: the code is `e`, and after `paths` and the window calls come
`openAudio`, the failed `new File` and `closeAudio`.  (3) `video.init` returns
true, the panel file opens, the fonts `pre` are constructed and the
construction of the next font `f` throws `e`: the code is `e`, and after
`paths` and the window calls come `openAudio`, `new File`, `loadRLE`,
`delete file`, the construction of the fonts `pre`, the failed construction of
`f`, then the deletion of the fonts `pre` in the order of their construction,
`delete[] pixels` and `closeAudio`.  So every acquired resource is released
exactly once and nothing else is; fonts are released oldest first, before the
pixel buffer and the audio device. -/
theorem ctor_rollback (E : Env) (B : Build) (argv0 : Str) (args : List Str) (w : World)
    (e : Int) (hne : ∀ a ∈ args, a ≠ [])
    (hhome : B.HOMEDIR = true ∨ B.LINUX_FHS = true → B.HOME ≠ none) :
    ∃ options paths,
      (determinePaths E B argv0 args w).2 = .ok options ∧
      (determinePaths E B argv0 args w).1.trace = w.trace ++ paths ∧
      (∀ c ∈ paths, c.isPath = true) ∧
      (E.videoInit (loadSettings E B).screenW (loadSettings E B).screenH
          (fullscreenMode E B options) = false →
        (Main.Main E B argv0 args w).2 = .error (Thrown.code E.E_VIDEO) ∧
        (Main.Main E B argv0 args w).1.trace = w.trace ++ paths ++
          [Call.createString, Call.setupLoad,
           Call.videoInit (loadSettings E B).screenW (loadSettings E B).screenH
             (fullscreenMode E B options) false]) ∧
      (E.videoInit (loadSettings E B).screenW (loadSettings E B).screenH
          (fullscreenMode E B options) = true →
        E.panelOpen = some e →
        (Main.Main E B argv0 args w).2 = .error (Thrown.code e) ∧
        (Main.Main E B argv0 args w).1.trace = w.trace ++ paths ++ windowCalls E B options ++
          [Call.openAudio, Call.newFile false, Call.closeAudio]) ∧
      (E.videoInit (loadSettings E B).screenW (loadSettings E B).screenH
          (fullscreenMode E B options) = true →
        E.panelOpen = none →
        ∀ pre f post, fontOrder = pre ++ f :: post →
          (∀ g ∈ pre, E.fontCtor g = none) → E.fontCtor f = some e →
          (Main.Main E B argv0 args w).2 = .error (Thrown.code e) ∧
          (Main.Main E B argv0 args w).1.trace = w.trace ++ paths ++ windowCalls E B options ++
            ([Call.openAudio, Call.newFile true, Call.loadRLE, Call.deleteFile]
              ++ pre.map (fun g => Call.newFont g true) ++ [Call.newFont f false]
              ++ pre.map Call.deleteFont ++ [Call.deletePixels, Call.closeAudio])) := by
  obtain ⟨o, ho⟩ := determinePaths_eq E B argv0 args w hne hhome
  obtain ⟨⟨ps, hps, hpath⟩, _⟩ := determinePaths_trace E B argv0 args w
  rcases hd : determinePaths E B argv0 args w with ⟨w1, r⟩
  rw [hd] at ho hps
  have hr : r = .ok o := (Prod.mk.inj ho).2
  subst hr
  have hps1 : w1.trace = w.trace ++ ps := hps
  refine ⟨o, ps, rfl, hps1, hpath, ?_, ?_, ?_⟩
  · intro hv
    have hm : Main.Main E B argv0 args w
        = (w1.calls E [Call.createString, Call.setupLoad,
            Call.videoInit (loadSettings E B).screenW (loadSettings E B).screenH
              (fullscreenMode E B o) false], .error (Thrown.code E.E_VIDEO)) := by
      simp only [Main.Main, hd, openWindow_fail E B o w1 hv]
    rw [hm]
    exact ⟨rfl, by simp [hps1]⟩
  · intro hv hp
    have hm : Main.Main E B argv0 args w
        = ((w1.calls E (windowCalls E B o)).calls E
            [Call.openAudio, Call.newFile false, Call.closeAudio],
            .error (Thrown.code e)) := by
      simp only [Main.Main, hd, openWindow_ok E B o w1 hv, loadResources_panel E _ e hp]
    rw [hm]
    exact ⟨rfl, by simp [hps1]⟩
  · intro hv hp pre f post h1 h2 h3
    have hm : Main.Main E B argv0 args w
        = ((w1.calls E (windowCalls E B o)).calls E
            ([Call.openAudio, Call.newFile true, Call.loadRLE, Call.deleteFile]
              ++ pre.map (fun g => Call.newFont g true) ++ [Call.newFont f false]
              ++ pre.map Call.deleteFont ++ [Call.deletePixels, Call.closeAudio]),
            .error (Thrown.code e)) := by
      simp only [Main.Main, hd, openWindow_ok E B o w1 hv,
        loadResources_font E _ e pre post f hp h1 h2 h3]
    rw [hm]
    exact ⟨rfl, by simp [hps1]⟩

/-- Witness of `ctor_rollback`: started as `./openjazz` in a desktop build, the
construction of `fontbig`, the fourth font, throws the code `-7`; the three
fonts built before it are deleted, then the pixels, then the audio device is
closed, and `-7` is thrown. -/
theorem ctor_rollback_witness :
    (Main.Main (fontFails FontId.fontbig (-7)) desktopBuild "./openjazz".toList []
        (World.start 0 [])).2 = .error (Thrown.code (-7)) ∧
    (Main.Main (fontFails FontId.fontbig (-7)) desktopBuild "./openjazz".toList []
        (World.start 0 [])).1.trace
      = [Call.addDataSearchPath "./".toList, Call.addDataSearchPath [],
         Call.createString, Call.setupLoad, Call.videoInit 320 200 false true,
         Call.numJoysticks,
         Call.openAudio, Call.newFile true, Call.loadRLE, Call.deleteFile,
         Call.newFont FontId.panelBigFont true, Call.newFont FontId.panelSmallFont true,
         Call.newFont FontId.font2 true, Call.newFont FontId.fontbig false,
         Call.deleteFont FontId.panelBigFont, Call.deleteFont FontId.panelSmallFont,
         Call.deleteFont FontId.font2, Call.deletePixels, Call.closeAudio] := by
  obtain ⟨options, paths, h1, h2, _, _, _, c3⟩ :=
    ctor_rollback (fontFails FontId.fontbig (-7)) desktopBuild "./openjazz".toList []
      (World.start 0 []) (-7) (by decide) (by decide)
  obtain ⟨r1, r2⟩ := c3 rfl rfl
    [FontId.panelBigFont, FontId.panelSmallFont, FontId.font2] FontId.fontbig
    [FontId.fontiny, FontId.fontmn1, FontId.fontmn2] rfl (by decide) rfl
  have e1 : (determinePaths (fontFails FontId.fontbig (-7)) desktopBuild "./openjazz".toList []
      (World.start 0 [])).2 = .ok [] := rfl
  have e2 : (determinePaths (fontFails FontId.fontbig (-7)) desktopBuild "./openjazz".toList []
      (World.start 0 [])).1.trace
      = [Call.addDataSearchPath "./".toList, Call.addDataSearchPath []] := by decide
  rw [e1] at h1
  rw [e2] at h2
  have ho : options = [] := by simpa using h1.symm
  have hp : paths = [Call.addDataSearchPath "./".toList, Call.addDataSearchPath []] := by
    simpa [World.start] using h2.symm
  subst ho
  subst hp
  refine ⟨r1, ?_⟩
  rw [r2]
  decide

/-- C1 as stated fails: when the construction of `font2`, the third font, throws,
the two fonts built before it are deleted in the order of their construction
(`panelBigFont`, then `panelSmallFont`), which is not the reverse of the order
of acquisition. -/
theorem ctor_rollback_counterexample :
    (Main.Main (fontFails FontId.font2 (-7)) desktopBuild "./openjazz".toList []
        (World.start 0 [])).2 = .error (Thrown.code (-7)) ∧
    acquired (Main.Main (fontFails FontId.font2 (-7)) desktopBuild "./openjazz".toList []
        (World.start 0 [])).1.trace
      = [Res.audio, Res.pixels, Res.font FontId.panelBigFont, Res.font FontId.panelSmallFont] ∧
    released (Main.Main (fontFails FontId.font2 (-7)) desktopBuild "./openjazz".toList []
        (World.start 0 [])).1.trace
      = [Res.font FontId.panelBigFont, Res.font FontId.panelSmallFont, Res.pixels, Res.audio] ∧
    released (Main.Main (fontFails FontId.font2 (-7)) desktopBuild "./openjazz".toList []
        (World.start 0 [])).1.trace
      ≠ (acquired (Main.Main (fontFails FontId.font2 (-7)) desktopBuild "./openjazz".toList []
        (World.start 0 [])).1.trace).reverse :=
  ⟨rfl, by decide, by decide, by decide⟩

/-! ## Shut-down (C9) -/

theorem ctor_ok_trace (E : Env) (B : Build) (argv0 : Str) (args : List Str) (w : World)
    (h : (Main.Main E B argv0 args w).2 = .ok ()) :
    ∃ cs, (Main.Main E B argv0 args w).1.trace = w.trace ++ cs ∧
      ∀ c ∈ cs, c.isShutdown = false := by
  obtain ⟨⟨ps, hps, hpath⟩, _⟩ := determinePaths_trace E B argv0 args w
  rcases Main_unfold E B argv0 args w with ⟨t, _, hm⟩ | ⟨options, _, ⟨t, _, hm⟩ | ⟨_, hm⟩⟩
  · rw [hm] at h
    simp at h
  · rw [hm] at h
    simp at h
  · obtain ⟨⟨ws, hws, _, _, hwn⟩, _⟩ := openWindow_trace E B options
      (determinePaths E B argv0 args w).1
    rw [hm] at h ⊢
    have htr := loadResources_ok E _ h
    refine ⟨ps ++ ws ++ ([Call.openAudio, Call.newFile true, Call.loadRLE, Call.deleteFile]
          ++ fontOrder.map (fun g => Call.newFont g true)
          ++ [Call.deletePixels, Call.getTicks, Call.newNetwork]), ?_, ?_⟩
    · rw [htr, hws, hps]
      simp
    · intro c hc
      rcases List.mem_append.mp hc with m | m
      · rcases List.mem_append.mp m with m1 | m1
        · exact shutdown_of_isPath c (hpath c m1)
        · exact hwn c m1
      · simp [fontOrder] at m
        rcases m with m | m | m | m | m | m | m | m | m | m | m | m | m | m <;> (rw [m]; rfl)

theorem dtor_trace (E : Env) (B : Build) (w : World) :
    (Main.dtor E B w).trace = w.trace ++
      [Call.deleteNet,
       Call.deleteFont FontId.panelBigFont, Call.deleteFont FontId.panelSmallFont,
       Call.deleteFont FontId.font2, Call.deleteFont FontId.fontbig,
       Call.deleteFont FontId.fontiny, Call.deleteFont FontId.fontmn1,
       Call.deleteFont FontId.fontmn2] ++
      (if B.SCALE then
        Call.getScaleFactor :: (if E.getScaleFactor > 1 then [Call.freeCanvas] else [])
       else []) ++
      [Call.closeAudio, Call.setupSave] := by
  by_cases hS : B.SCALE = true <;> by_cases hg : E.getScaleFactor > 1 <;>
    simp [Main.dtor, hS, hg]

/-- C9.  When `SDL_Init` and the constructor succeed, `main` returns what `play`
returned, and the calls it makes after `play` are exactly, in this order:
`delete net`, the deletion of the seven fonts, (in a `SCALE` build, the query of
the scale factor and the release of the canvas when the factor exceeds 1),
`closeAudio`, `setup.save` and last `SDL_Quit`.  None of these release
operations occurs among the calls `startup` made before, so each is invoked
exactly once. -/
theorem shutdown_order (E : Env) (B : Build) (argv0 : Str) (args : List Str) (w : World)
    (hinit : ¬ E.sdlInit < 0)
    (hctor : (Main.Main E B argv0 args (w.call E (Call.sdlInit true))).2 = .ok ()) :
    ∃ startup, (∀ c ∈ startup, c.isShutdown = false) ∧
      (main E B argv0 args w).1.trace = w.trace ++ startup ++
        [Call.deleteNet,
         Call.deleteFont FontId.panelBigFont, Call.deleteFont FontId.panelSmallFont,
         Call.deleteFont FontId.font2, Call.deleteFont FontId.fontbig,
         Call.deleteFont FontId.fontiny, Call.deleteFont FontId.fontmn1,
         Call.deleteFont FontId.fontmn2] ++
        (if B.SCALE then
          Call.getScaleFactor :: (if E.getScaleFactor > 1 then [Call.freeCanvas] else [])
         else []) ++
        [Call.closeAudio, Call.setupSave, Call.sdlQuit] ∧
      (main E B argv0 args w).2
        = .ok (Main.play E (Main.Main E B argv0 args (w.call E (Call.sdlInit true))).1).2 := by
  obtain ⟨cs, hcs, hcn⟩ := ctor_ok_trace E B argv0 args _ hctor
  obtain ⟨ds, hds, hdn⟩ := play_trace E (Main.Main E B argv0 args (w.call E (Call.sdlInit true))).1
  rcases hm : Main.Main E B argv0 args (w.call E (Call.sdlInit true)) with ⟨w1, t | u⟩
  · rw [hm] at hctor
    simp at hctor
  · rw [hm] at hcs hds
    have hmain : main E B argv0 args w
        = ((Main.dtor E B (Main.play E w1).1).call E Call.sdlQuit, .ok (Main.play E w1).2) := by
      simp [main, hinit, hm]
    refine ⟨[Call.sdlInit true] ++ cs ++ ds, ?_, ?_, ?_⟩
    · intro c hc
      rcases List.mem_append.mp hc with m | m
      · rcases List.mem_append.mp m with m1 | m1
        · rw [List.mem_singleton.mp m1]; rfl
        · exact hcn c m1
      · exact hdn c m
    · have hcs2 : w1.trace = w.trace ++ Call.sdlInit true :: cs := by simpa using hcs
      have hds2 : (Main.play E w1).1.trace = w1.trace ++ ds := hds
      rw [hmain]
      simp only [World.trace_call, dtor_trace, hds2, hcs2]
      simp
    · rw [hmain]

/-- Witness of `shutdown_order`: a desktop run in which everything succeeds. -/
theorem shutdown_order_witness :
    ¬ quietEnv.sdlInit < 0 ∧
    (Main.Main quietEnv desktopBuild "./openjazz".toList []
      ((World.start 0 []).call quietEnv (Call.sdlInit true))).2 = .ok () ∧
    ∃ startup, (∀ c ∈ startup, c.isShutdown = false) ∧
      (main quietEnv desktopBuild "./openjazz".toList [] (World.start 0 [])).1.trace
        = (World.start 0 []).trace ++ startup ++
        [Call.deleteNet,
         Call.deleteFont FontId.panelBigFont, Call.deleteFont FontId.panelSmallFont,
         Call.deleteFont FontId.font2, Call.deleteFont FontId.fontbig,
         Call.deleteFont FontId.fontiny, Call.deleteFont FontId.fontmn1,
         Call.deleteFont FontId.fontmn2] ++
        (if desktopBuild.SCALE then
          Call.getScaleFactor :: (if quietEnv.getScaleFactor > 1 then [Call.freeCanvas] else [])
         else []) ++
        [Call.closeAudio, Call.setupSave, Call.sdlQuit] ∧
      (main quietEnv desktopBuild "./openjazz".toList [] (World.start 0 [])).2
        = .ok (Main.play quietEnv (Main.Main quietEnv desktopBuild "./openjazz".toList []
            ((World.start 0 []).call quietEnv (Call.sdlInit true))).1).2 :=
  ⟨by decide, rfl, shutdown_order quietEnv desktopBuild "./openjazz".toList []
    (World.start 0 []) (by decide) rfl⟩

/-! ## Lemmas on `loop` -/

@[simp] theorem wizVolume_trace (E : Env) (e : Event) (w : World) :
    (wizVolume E e w).trace = w.trace := by
  unfold wizVolume
  split_ifs <;> rfl

@[simp] theorem wizVolume_queue (E : Env) (e : Event) (w : World) :
    (wizVolume E e w).queue = w.queue := by
  unfold wizVolume
  split_ifs <;> rfl

@[simp] theorem wizVolume_now (E : Env) (e : Event) (w : World) :
    (wizVolume E e w).now = w.now := by
  unfold wizVolume
  split_ifs <;> rfl

@[simp] theorem wizVolume_globalTicks (E : Env) (e : Event) (w : World) :
    (wizVolume E e w).globalTicks = w.globalTicks := by
  unfold wizVolume
  split_ifs <;> rfl

theorem eventLoop_drain (E : Env) (B : Build) (type : LoopType) (q : List Event) (w : World)
    (hq : ∀ e ∈ q, e.type ≠ E.SDL_QUIT)
    (hu : ∀ a e b, q = a ++ e :: b →
      E.controlsUpdate (w.trace ++ a.flatMap (eventCalls type)) e type = E.E_NONE) :
    (eventLoop E B type q w).2 = none ∧ (eventLoop E B type q w).1.queue = [] ∧
    (eventLoop E B type q w).1.trace = w.trace ++ q.flatMap (eventCalls type) := by
  induction q generalizing w with
  | nil => simp [eventLoop]
  | cons e rest ih =>
    have h1 : e.type ≠ E.SDL_QUIT := hq e (List.mem_cons_self _ _)
    have h2 : E.controlsUpdate w.trace e type = E.E_NONE := by
      simpa using hu [] e rest rfl
    have hrest : ∀ x ∈ rest, x.type ≠ E.SDL_QUIT := fun x hx => hq x (List.mem_cons_of_mem _ hx)
    by_cases hW : B.WIZ_GP2X = true
    · have := ih (wizVolume E e ((({ w with queue := rest }).call E
          (Call.controlsUpdate e type)).call E (Call.videoUpdate e))) hrest (by
        intro a x b hab
        have := hu (e :: a) x b (by simp [hab])
        simpa [eventCalls, List.append_assoc] using this)
      simpa [eventLoop, h1, h2, hW, eventCalls, List.append_assoc] using this
    · have := ih ((({ w with queue := rest }).call E
          (Call.controlsUpdate e type)).call E (Call.videoUpdate e)) hrest (by
        intro a x b hab
        have := hu (e :: a) x b (by simp [hab])
        simpa [eventCalls, List.append_assoc] using this)
      simpa [eventLoop, h1, h2, hW, eventCalls, List.append_assoc] using this

theorem eventLoop_quit (E : Env) (B : Build) (type : LoopType) (pre post : List Event)
    (q : Event) (w : World) (hq : q.type = E.SDL_QUIT) :
    ∃ handled ret, (eventLoop E B type (pre ++ q :: post) w).2 = some ret ∧
      (eventLoop E B type (pre ++ q :: post) w).1.trace = w.trace ++ handled ∧
      handled <+: pre.flatMap (eventCalls type) ∧
      ((∀ e ∈ pre, e.type ≠ E.SDL_QUIT) →
        (∀ a e b, pre = a ++ e :: b →
          E.controlsUpdate (w.trace ++ a.flatMap (eventCalls type)) e type = E.E_NONE) →
        ret = E.E_QUIT ∧ handled = pre.flatMap (eventCalls type) ∧
        (eventLoop E B type (pre ++ q :: post) w).1.queue = post) := by
  induction pre generalizing w with
  | nil =>
    refine ⟨[], E.E_QUIT, by simp [eventLoop, hq], by simp [eventLoop, hq], by simp, ?_⟩
    intro _ _
    simp [eventLoop, hq]
  | cons e rest ih =>
    by_cases h1 : e.type = E.SDL_QUIT
    · refine ⟨[], E.E_QUIT, by simp [eventLoop, h1], by simp [eventLoop, h1],
        List.nil_prefix, ?_⟩
      intro hne _
      exact absurd h1 (hne e (List.mem_cons_self _ _))
    · by_cases h2 : E.controlsUpdate w.trace e type = E.E_NONE
      · have key : ∀ w2 : World, w2.trace = w.trace ++ eventCalls type e →
            eventLoop E B type (e :: rest ++ q :: post) w = eventLoop E B type (rest ++ q :: post) w2 →
            ∃ handled ret, (eventLoop E B type (e :: rest ++ q :: post) w).2 = some ret ∧
              (eventLoop E B type (e :: rest ++ q :: post) w).1.trace = w.trace ++ handled ∧
              handled <+: (e :: rest).flatMap (eventCalls type) ∧
              ((∀ x ∈ e :: rest, x.type ≠ E.SDL_QUIT) →
                (∀ a x b, e :: rest = a ++ x :: b →
                  E.controlsUpdate (w.trace ++ a.flatMap (eventCalls type)) x type = E.E_NONE) →
                ret = E.E_QUIT ∧ handled = (e :: rest).flatMap (eventCalls type) ∧
                (eventLoop E B type (e :: rest ++ q :: post) w).1.queue = post) := by
          intro w2 htr heq
          obtain ⟨handled, ret, r1, r2, r3, r4⟩ := ih w2
          refine ⟨eventCalls type e ++ handled, ret, by rw [heq]; exact r1, ?_, ?_, ?_⟩
          · rw [heq, r2, htr, List.append_assoc]
          · rw [List.flatMap_cons]
            exact (List.prefix_append_right_inj _).mpr r3
          · intro hne hupd
            obtain ⟨s1, s2, s3⟩ := r4 (fun x hx => hne x (List.mem_cons_of_mem _ hx)) (by
              intro a x b hab
              have := hupd (e :: a) x b (by simp [hab])
              rw [htr]
              simpa [List.append_assoc] using this)
            exact ⟨s1, by rw [List.flatMap_cons, s2], by rw [heq]; exact s3⟩
        by_cases hW : B.WIZ_GP2X = true
        · exact key (wizVolume E e ((({ w with queue := rest ++ q :: post }).call E
            (Call.controlsUpdate e type)).call E (Call.videoUpdate e)))
            (by simp [eventCalls]) (by simp [eventLoop, h1, h2, hW])
        · exact key ((({ w with queue := rest ++ q :: post }).call E
            (Call.controlsUpdate e type)).call E (Call.videoUpdate e))
            (by simp [eventCalls]) (by simp [eventLoop, h1, h2, hW])
      · refine ⟨[Call.controlsUpdate e type], E.controlsUpdate w.trace e type,
          by simp [eventLoop, h1, h2], by simp [eventLoop, h1, h2], ?_, ?_⟩
        · rw [List.flatMap_cons]
          exact ⟨Call.videoUpdate e :: rest.flatMap (eventCalls type), by simp [eventCalls]⟩
        · intro _ hupd
          exact absurd (by simpa using hupd [] e rest rfl) h2

theorem frameTiming_trace (E : Env) (pe : PaletteEffects) (w : World) :
    (frameTiming E pe w).queue = w.queue ∧
    (frameTiming E pe w).volume_direction = w.volume_direction ∧
    ∃ timing, (frameTiming E pe w).trace = w.trace ++ timing ∧
      ∀ c ∈ timing, c.isInput = false := by
  unfold frameTiming getTicks
  simp only []
  split_ifs
  · refine ⟨rfl, rfl, ⟨_, by simp; rfl, ?_⟩⟩
    simp [Call.isInput]
  · refine ⟨rfl, rfl, ⟨_, by simp; rfl, ?_⟩⟩
    simp [Call.isInput]

/-! ## The event drain of `loop` (C4, C5) -/

/-- C4.  When none of the pending events is `SDL_QUIT` and `controls.update`
returns `E_NONE` for each of them (at the moment it is called), one call of
`loop` returns `E_NONE`, leaves the queue empty, and its calls are: timing calls
(none of them on `controls` or an event), then for each pending event in queue
order `controls.update` followed by `video.update` on that event, then
`controls.loop` once, then a tail without any call on `controls` or an event. -/
theorem loop_drains_events (E : Env) (B : Build) (type : LoopType) (pe : PaletteEffects)
    (w : World) (hq : ∀ e ∈ w.queue, e.type ≠ E.SDL_QUIT)
    (hu : ∀ a e b, w.queue = a ++ e :: b →
      E.controlsUpdate ((frameTiming E pe w).trace ++ a.flatMap (eventCalls type)) e type
        = E.E_NONE) :
    (loop E B type pe w).2 = E.E_NONE ∧ (loop E B type pe w).1.queue = [] ∧
    ∃ timing tail, (∀ c ∈ timing, c.isInput = false) ∧ (∀ c ∈ tail, c.isInput = false) ∧
      (loop E B type pe w).1.trace
        = w.trace ++ timing ++ w.queue.flatMap (eventCalls type) ++ [Call.controlsLoop]
            ++ tail := by
  obtain ⟨hfq, _, timing, hft, hfn⟩ := frameTiming_trace E pe w
  obtain ⟨d1, d2, d3⟩ := eventLoop_drain E B type w.queue (frameTiming E pe w) hq hu
  rcases hr : eventLoop E B type w.queue (frameTiming E pe w) with ⟨w2, r⟩
  rw [hr] at d1 d2 d3
  simp only at d1 d2 d3
  subst d1
  by_cases hW : B.WIZ_GP2X = true
  · refine ⟨by simp [loop, hfq, hr], by simp [loop, hfq, hr, hW, d2],
      timing, [Call.wizAdjustVolume w2.volume_direction], hfn, by simp [Call.isInput], ?_⟩
    simp [loop, hfq, hr, hW, d3, hft]
  · refine ⟨by simp [loop, hfq, hr], by simp [loop, hfq, hr, hW, d2],
      timing, [], hfn, by simp, ?_⟩
    simp [loop, hfq, hr, hW, d3, hft]

/-- Witness of `loop_drains_events`: a mouse-motion event and a key-up event
are pending. -/
theorem loop_drains_events_witness :
    (loop quietEnv desktopBuild 0 0 (World.start 1000 [⟨4, 0, 7⟩, ⟨3, 0, 97⟩])).2 = 0 ∧
    (loop quietEnv desktopBuild 0 0 (World.start 1000 [⟨4, 0, 7⟩, ⟨3, 0, 97⟩])).1.queue = [] ∧
    ∃ timing tail, (∀ c ∈ timing, c.isInput = false) ∧ (∀ c ∈ tail, c.isInput = false) ∧
      (loop quietEnv desktopBuild 0 0 (World.start 1000 [⟨4, 0, 7⟩, ⟨3, 0, 97⟩])).1.trace
        = [] ++ timing ++ [(⟨4, 0, 7⟩ : Event), ⟨3, 0, 97⟩].flatMap (eventCalls 0)
            ++ [Call.controlsLoop] ++ tail :=
  loop_drains_events quietEnv desktopBuild 0 0 (World.start 1000 [⟨4, 0, 7⟩, ⟨3, 0, 97⟩])
    (by decide) (fun _ _ _ _ => rfl)

/-- C5, as amended.  Let the pending events be `pre`, then an `SDL_QUIT` event,
then `post`.  The calls of one `loop` are timing calls followed by calls
`handled` that form an initial part of the handling of the events `pre`: no
event after the quit event is passed to `controls.update` or `video.update`, and
`controls.loop` is not invoked.  If moreover no event of `pre` is `SDL_QUIT` and
`controls.update` returns `E_NONE` for each of them, `loop` returns `E_QUIT`,
every event of `pre` has been handled and the queue holds `post`. -/
theorem loop_quit_short_circuit (E : Env) (B : Build) (type : LoopType) (pe : PaletteEffects)
    (w : World) (pre post : List Event) (q : Event)
    (hsplit : w.queue = pre ++ q :: post) (hq : q.type = E.SDL_QUIT) :
    ∃ timing handled, (∀ c ∈ timing, c.isInput = false) ∧
      (loop E B type pe w).1.trace = w.trace ++ timing ++ handled ∧
      handled <+: pre.flatMap (eventCalls type) ∧
      ((∀ e ∈ pre, e.type ≠ E.SDL_QUIT) →
        (∀ a e b, pre = a ++ e :: b →
          E.controlsUpdate ((frameTiming E pe w).trace ++ a.flatMap (eventCalls type)) e type
            = E.E_NONE) →
        (loop E B type pe w).2 = E.E_QUIT ∧ handled = pre.flatMap (eventCalls type) ∧
        (loop E B type pe w).1.queue = post) := by
  obtain ⟨hfq, _, timing, hft, hfn⟩ := frameTiming_trace E pe w
  obtain ⟨handled, ret, r1, r2, r3, r4⟩ :=
    eventLoop_quit E B type pre post q (frameTiming E pe w) hq
  rcases hr : eventLoop E B type (pre ++ q :: post) (frameTiming E pe w) with ⟨w2, r⟩
  rw [hr] at r1 r2 r4
  simp only at r1 r2 r4
  subst r1
  have hloop : loop E B type pe w = (w2, ret) := by
    simp [loop, hfq, hsplit, hr]
  refine ⟨timing, handled, hfn, ?_, r3, ?_⟩
  · rw [hloop, r2, hft]
  · intro hne hupd
    rw [hloop]
    exact r4 hne hupd

/-- Witness of `loop_quit_short_circuit`: a mouse-motion event, then the quit
event, then a key-up event. -/
theorem loop_quit_short_circuit_witness :
    ∃ timing handled, (∀ c ∈ timing, c.isInput = false) ∧
      (loop quietEnv desktopBuild 0 0
          (World.start 1000 [⟨4, 0, 7⟩, ⟨12, 0, 0⟩, ⟨3, 0, 97⟩])).1.trace
        = [] ++ timing ++ handled ∧
      handled <+: [(⟨4, 0, 7⟩ : Event)].flatMap (eventCalls 0) ∧
      ((∀ e ∈ [(⟨4, 0, 7⟩ : Event)], e.type ≠ quietEnv.SDL_QUIT) →
        (∀ a e b, [(⟨4, 0, 7⟩ : Event)] = a ++ e :: b →
          quietEnv.controlsUpdate ((frameTiming quietEnv 0
            (World.start 1000 [⟨4, 0, 7⟩, ⟨12, 0, 0⟩, ⟨3, 0, 97⟩])).trace
              ++ a.flatMap (eventCalls 0)) e 0 = quietEnv.E_NONE) →
        (loop quietEnv desktopBuild 0 0
          (World.start 1000 [⟨4, 0, 7⟩, ⟨12, 0, 0⟩, ⟨3, 0, 97⟩])).2 = quietEnv.E_QUIT ∧
        handled = [(⟨4, 0, 7⟩ : Event)].flatMap (eventCalls 0) ∧
        (loop quietEnv desktopBuild 0 0
          (World.start 1000 [⟨4, 0, 7⟩, ⟨12, 0, 0⟩, ⟨3, 0, 97⟩])).1.queue = [⟨3, 0, 97⟩]) :=
  loop_quit_short_circuit quietEnv desktopBuild 0 0
    (World.start 1000 [⟨4, 0, 7⟩, ⟨12, 0, 0⟩, ⟨3, 0, 97⟩]) [⟨4, 0, 7⟩] [⟨3, 0, 97⟩] ⟨12, 0, 0⟩
    rfl rfl

/-- C5 as stated fails: with a key-down event pending before the quit event and
`controls.update` answering it with the key (97), `loop` returns 97, not
`E_QUIT`. -/
theorem loop_quit_short_circuit_counterexample :
    (⟨12, 0, 0⟩ : Event) ∈ (World.start 1000 [⟨2, 0, 97⟩, ⟨12, 0, 0⟩]).queue ∧
    (⟨12, 0, 0⟩ : Event).type = typingEnv.SDL_QUIT ∧
    (loop typingEnv desktopBuild 1 0 (World.start 1000 [⟨2, 0, 97⟩, ⟨12, 0, 0⟩])).2 = 97 ∧
    (loop typingEnv desktopBuild 1 0 (World.start 1000 [⟨2, 0, 97⟩, ⟨12, 0, 0⟩])).2
      ≠ typingEnv.E_QUIT := by
  decide

/-! ## Lemmas on the clock -/

theorem eventLoop_rest (E : Env) (B : Build) (type : LoopType) (q : List Event) (w : World) :
    (eventLoop E B type q w).1.globalTicks = w.globalTicks ∧
    ∃ cs, (eventLoop E B type q w).1.trace = w.trace ++ cs ∧
      ∀ c ∈ cs, c.isTiming = false := by
  induction q generalizing w with
  | nil => exact ⟨rfl, [], by simp [eventLoop], by simp⟩
  | cons e rest ih =>
    by_cases h1 : e.type = E.SDL_QUIT
    · exact ⟨by simp [eventLoop, h1], [], by simp [eventLoop, h1], by simp⟩
    · by_cases h2 : E.controlsUpdate w.trace e type = E.E_NONE
      · have key : ∀ w2 : World, w2.globalTicks = w.globalTicks →
            w2.trace = w.trace ++ eventCalls type e →
            eventLoop E B type (e :: rest) w = eventLoop E B type rest w2 →
            (eventLoop E B type (e :: rest) w).1.globalTicks = w.globalTicks ∧
            ∃ cs, (eventLoop E B type (e :: rest) w).1.trace = w.trace ++ cs ∧
              ∀ c ∈ cs, c.isTiming = false := by
          intro w2 hg htr heq
          obtain ⟨g, cs, h3, h4⟩ := ih w2
          refine ⟨by rw [heq, g, hg], eventCalls type e ++ cs,
            by rw [heq, h3, htr, List.append_assoc], ?_⟩
          intro c hc
          rcases List.mem_append.mp hc with m | m
          · simp [eventCalls] at m
            rcases m with m | m <;> (rw [m]; rfl)
          · exact h4 c m
        by_cases hW : B.WIZ_GP2X = true
        · exact key (wizVolume E e ((({ w with queue := rest }).call E
            (Call.controlsUpdate e type)).call E (Call.videoUpdate e)))
            (by simp) (by simp [eventCalls]) (by simp [eventLoop, h1, h2, hW])
        · exact key ((({ w with queue := rest }).call E
            (Call.controlsUpdate e type)).call E (Call.videoUpdate e))
            (by simp) (by simp [eventCalls]) (by simp [eventLoop, h1, h2, hW])
      · refine ⟨by simp [eventLoop, h1, h2], [Call.controlsUpdate e type],
          by simp [eventLoop, h1, h2], ?_⟩
        intro c hc
        rw [List.mem_singleton.mp hc]; rfl

theorem eventLoop_now (E : Env) (hmono : ∀ h c t, t ≤ E.clockAfter h c t) (B : Build)
    (type : LoopType) (q : List Event) (w : World) :
    w.now ≤ (eventLoop E B type q w).1.now := by
  induction q generalizing w with
  | nil => simp [eventLoop]
  | cons e rest ih =>
    by_cases h1 : e.type = E.SDL_QUIT
    · simp [eventLoop, h1]
    · by_cases h2 : E.controlsUpdate w.trace e type = E.E_NONE
      · have a1 := hmono w.trace (Call.controlsUpdate e type) w.now
        have a2 := hmono (w.trace ++ [Call.controlsUpdate e type]) (Call.videoUpdate e)
          (E.clockAfter w.trace (Call.controlsUpdate e type) w.now)
        by_cases hW : B.WIZ_GP2X = true
        · have := ih (wizVolume E e ((({ w with queue := rest }).call E
            (Call.controlsUpdate e type)).call E (Call.videoUpdate e)))
          simp only [wizVolume_now, World.call] at this
          simp only [eventLoop, h1, h2, hW, if_false, if_true, ne_eq, not_true_eq_false,
            World.call]
          omega
        · have := ih ((({ w with queue := rest }).call E
            (Call.controlsUpdate e type)).call E (Call.videoUpdate e))
          simp only [World.call] at this
          simp only [eventLoop, h1, h2, hW, if_false, ne_eq, not_true_eq_false, World.call,
            Bool.false_eq_true]
          omega
      · simp only [eventLoop, h1, h2, if_false, if_true, ne_eq, not_false_eq_true, World.call]
        exact hmono _ _ _

theorem loop_rest (E : Env) (B : Build) (type : LoopType) (pe : PaletteEffects) (w : World) :
    (loop E B type pe w).1.globalTicks = (frameTiming E pe w).globalTicks ∧
    ∃ rest, (loop E B type pe w).1.trace = (frameTiming E pe w).trace ++ rest ∧
      ∀ c ∈ rest, c.isTiming = false := by
  obtain ⟨g, cs, h1, h2⟩ := eventLoop_rest E B type (frameTiming E pe w).queue (frameTiming E pe w)
  rcases hr : eventLoop E B type (frameTiming E pe w).queue (frameTiming E pe w) with ⟨w2, r⟩
  rw [hr] at g h1
  simp only at g h1
  cases r with
  | some ret => exact ⟨by simp [loop, hr, g], cs, by simp [loop, hr, h1], h2⟩
  | none =>
    by_cases hW : B.WIZ_GP2X = true
    · refine ⟨by simp [loop, hr, g, hW], cs ++ [Call.controlsLoop,
        Call.wizAdjustVolume w2.volume_direction], by simp [loop, hr, h1, hW], ?_⟩
      intro c hc
      rcases List.mem_append.mp hc with m | m
      · exact h2 c m
      · simp at m
        rcases m with m | m <;> (rw [m]; rfl)
    · refine ⟨by simp [loop, hr, g, hW], cs ++ [Call.controlsLoop],
        by simp [loop, hr, h1, hW], ?_⟩
      intro c hc
      rcases List.mem_append.mp hc with m | m
      · exact h2 c m
      · rw [List.mem_singleton.mp m]; rfl

theorem loop_now (E : Env) (hmono : ∀ h c t, t ≤ E.clockAfter h c t) (B : Build)
    (type : LoopType) (pe : PaletteEffects) (w : World) :
    (frameTiming E pe w).now ≤ (loop E B type pe w).1.now := by
  have h := eventLoop_now E hmono B type (frameTiming E pe w).queue (frameTiming E pe w)
  rcases hr : eventLoop E B type (frameTiming E pe w).queue (frameTiming E pe w) with ⟨w2, r⟩
  rw [hr] at h
  simp only at h
  cases r with
  | some ret => simpa [loop, hr] using h
  | none =>
    have a1 := hmono w2.trace Call.controlsLoop w2.now
    by_cases hW : B.WIZ_GP2X = true
    · have a2 := hmono (w2.trace ++ [Call.controlsLoop])
        (Call.wizAdjustVolume w2.volume_direction) (E.clockAfter w2.trace Call.controlsLoop w2.now)
      simp only [loop, hr, hW, if_true, World.call]
      omega
    · simp only [loop, hr, hW, if_false, World.call, Bool.false_eq_true]
      omega

theorem frameTiming_globalTicks_le (E : Env) (hmono : ∀ h c t, t ≤ E.clockAfter h c t)
    (pe : PaletteEffects) (w : World) :
    (frameTiming E pe w).globalTicks ≤ (frameTiming E pe w).now := by
  simp only [frameTiming, getTicks, World.call]
  split_ifs
  · exact le_trans (Nat.mod_le _ _) (hmono _ _ _)
  · exact le_trans (Nat.mod_le _ _) (hmono _ _ _)

theorem frameTiming_spec (E : Env) (pe : PaletteEffects) (w : World)
    (hmono : ∀ h c t, t ≤ E.clockAfter h c t)
    (hdelay : ∀ h d t, t + d ≤ E.clockAfter h (Call.delay d) t)
    (hT : E.T_ACTIVE_FRAME < 2 ^ 31)
    (hg : w.globalTicks ≤ w.now)
    (hb : (frameTiming E pe w).now < 2 ^ 31) :
    w.globalTicks + E.T_ACTIVE_FRAME ≤ (frameTiming E pe w).globalTicks ∧
    w.globalTicks ≤ E.clockAfter w.trace Call.getTicks w.now ∧
    ((E.T_ACTIVE_FRAME ≤ E.clockAfter w.trace Call.getTicks w.now - w.globalTicks ∧
      (frameTiming E pe w).trace = w.trace ++
        [Call.getTicks, Call.flip ((frameTiming E pe w).globalTicks - w.globalTicks) pe]) ∨
     (E.clockAfter w.trace Call.getTicks w.now - w.globalTicks < E.T_ACTIVE_FRAME ∧
      (frameTiming E pe w).trace = w.trace ++
        [Call.getTicks,
         Call.delay (E.T_ACTIVE_FRAME
            - (E.clockAfter w.trace Call.getTicks w.now - w.globalTicks)),
         Call.getTicks,
         Call.flip ((frameTiming E pe w).globalTicks - w.globalTicks) pe])) := by
  simp only [frameTiming, getTicks, World.call] at hb ⊢
  have h1 := hmono w.trace Call.getTicks w.now
  generalize E.clockAfter w.trace Call.getTicks w.now = r1 at h1 hb ⊢
  by_cases hc : wrap32 (((r1 % 2 ^ 32 : Nat) : Int) - (w.globalTicks : Int)) < E.T_ACTIVE_FRAME
  · simp only [hc, if_true] at hb ⊢
    have h2 := hdelay (w.trace ++ [Call.getTicks])
      (wrap32 ((E.T_ACTIVE_FRAME : Int) + (w.globalTicks : Int) - ((r1 % 2 ^ 32 : Nat) : Int))) r1
    generalize hd : wrap32 ((E.T_ACTIVE_FRAME : Int) + (w.globalTicks : Int)
      - ((r1 % 2 ^ 32 : Nat) : Int)) = d at h2 hb ⊢
    generalize E.clockAfter (w.trace ++ [Call.getTicks]) (Call.delay d) r1 = n2 at h2 hb ⊢
    have h3 := hmono (w.trace ++ [Call.getTicks] ++ [Call.delay d]) Call.getTicks n2
    generalize E.clockAfter (w.trace ++ [Call.getTicks] ++ [Call.delay d]) Call.getTicks n2
      = r2 at h3 hb ⊢
    have h4 := hmono (w.trace ++ [Call.getTicks] ++ [Call.delay d] ++ [Call.getTicks])
      (Call.flip (wrap32 (((r2 % 2 ^ 32 : Nat) : Int) - (w.globalTicks : Int))) pe) r2
    have e1 : wrap32 (((r2 % 2 ^ 32 : Nat) : Int) - (w.globalTicks : Int))
        = r2 % 2 ^ 32 - w.globalTicks := by
      unfold wrap32 at hc hd ⊢
      omega
    have e2 : d = E.T_ACTIVE_FRAME - (r1 - w.globalTicks) := by
      unfold wrap32 at hc hd
      omega
    unfold wrap32 at hc hd
    refine ⟨by omega, by omega, Or.inr ⟨by omega, ?_⟩⟩
    rw [e1, e2]
    simp
  · simp only [hc, if_false] at hb ⊢
    have h4 := hmono (w.trace ++ [Call.getTicks])
      (Call.flip (wrap32 (((r1 % 2 ^ 32 : Nat) : Int) - (w.globalTicks : Int))) pe) r1
    have e1 : wrap32 (((r1 % 2 ^ 32 : Nat) : Int) - (w.globalTicks : Int))
        = r1 % 2 ^ 32 - w.globalTicks := by
      unfold wrap32 at hc ⊢
      omega
    unfold wrap32 at hc
    refine ⟨by omega, by omega, Or.inl ⟨by omega, ?_⟩⟩
    rw [e1]
    simp

/-! ## Frame pacing (C6) -/

/-- C6.  Assume a clock that never goes back, on which `SDL_Delay (d)` takes at
least `d` ticks, and tick values that fit an `int` (`T_ACTIVE_FRAME` and the
clock at the end of the second call are below `2 ^ 31`).  Let a call of `loop`
in world `w` be followed by a call of `loop` in world `w2`, where `globalTicks`
is still what the first call stored and the clock has not gone back.  Then the
`globalTicks` stored by the second call exceeds the one stored by the first by
at least `T_ACTIVE_FRAME`, and this difference is the delta passed to
`video.flip`.  With `elapsed` the clock read at the start of the second call
minus the stored `globalTicks`: the second call either issues no delay
(`T_ACTIVE_FRAME ≤ elapsed`), or issues exactly one, before `video.flip`, whose
argument `T_ACTIVE_FRAME - elapsed` is positive and at most `T_ACTIVE_FRAME`. -/
theorem loop_pacing (E : Env) (B : Build) (type1 type2 : LoopType)
    (pe1 pe2 : PaletteEffects) (w w2 : World)
    (hmono : ∀ h c t, t ≤ E.clockAfter h c t)
    (hdelay : ∀ h d t, t + d ≤ E.clockAfter h (Call.delay d) t)
    (hT : E.T_ACTIVE_FRAME < 2 ^ 31)
    (hg : w2.globalTicks = (loop E B type1 pe1 w).1.globalTicks)
    (hnow : (loop E B type1 pe1 w).1.now ≤ w2.now)
    (hb : (loop E B type2 pe2 w2).1.now < 2 ^ 31) :
    (loop E B type1 pe1 w).1.globalTicks + E.T_ACTIVE_FRAME
      ≤ (loop E B type2 pe2 w2).1.globalTicks ∧
    E.T_ACTIVE_FRAME
      ≤ (loop E B type2 pe2 w2).1.globalTicks - (loop E B type1 pe1 w).1.globalTicks ∧
    ∃ rest, (∀ c ∈ rest, c.isTiming = false) ∧
      ((E.T_ACTIVE_FRAME ≤ E.clockAfter w2.trace Call.getTicks w2.now
            - (loop E B type1 pe1 w).1.globalTicks ∧
        (loop E B type2 pe2 w2).1.trace = w2.trace ++
          [Call.getTicks,
           Call.flip ((loop E B type2 pe2 w2).1.globalTicks
              - (loop E B type1 pe1 w).1.globalTicks) pe2] ++ rest) ∨
       (E.clockAfter w2.trace Call.getTicks w2.now - (loop E B type1 pe1 w).1.globalTicks
            < E.T_ACTIVE_FRAME ∧
        0 < E.T_ACTIVE_FRAME - (E.clockAfter w2.trace Call.getTicks w2.now
            - (loop E B type1 pe1 w).1.globalTicks) ∧
        E.T_ACTIVE_FRAME - (E.clockAfter w2.trace Call.getTicks w2.now
            - (loop E B type1 pe1 w).1.globalTicks) ≤ E.T_ACTIVE_FRAME ∧
        (loop E B type2 pe2 w2).1.trace = w2.trace ++
          [Call.getTicks,
           Call.delay (E.T_ACTIVE_FRAME - (E.clockAfter w2.trace Call.getTicks w2.now
              - (loop E B type1 pe1 w).1.globalTicks)),
           Call.getTicks,
           Call.flip ((loop E B type2 pe2 w2).1.globalTicks
              - (loop E B type1 pe1 w).1.globalTicks) pe2] ++ rest)) := by
  have hg1 : w2.globalTicks ≤ w2.now := by
    rw [hg, (loop_rest E B type1 pe1 w).1]
    exact le_trans (frameTiming_globalTicks_le E hmono pe1 w)
      (le_trans (loop_now E hmono B type1 pe1 w) hnow)
  have hb2 : (frameTiming E pe2 w2).now < 2 ^ 31 :=
    lt_of_le_of_lt (loop_now E hmono B type2 pe2 w2) hb
  obtain ⟨s1, s2, s3⟩ := frameTiming_spec E pe2 w2 hmono hdelay hT hg1 hb2
  obtain ⟨g2, rest, htr, hrest⟩ := loop_rest E B type2 pe2 w2
  rw [← hg, g2, htr]
  refine ⟨s1, by omega, rest, hrest, ?_⟩
  rcases s3 with ⟨a, b⟩ | ⟨a, b⟩
  · exact Or.inl ⟨a, by rw [b]⟩
  · exact Or.inr ⟨a, by omega, by omega, by rw [b]⟩

/-- Witness of `loop_pacing`: a first call at tick 1000 and a second call seven
ticks later, which delays by 13 ticks. -/
theorem loop_pacing_witness :
    (loop quietEnv desktopBuild 0 0 (World.start 1000 [])).1.globalTicks
        + quietEnv.T_ACTIVE_FRAME
      ≤ (loop quietEnv desktopBuild 0 0 sevenTicksLater).1.globalTicks ∧
    quietEnv.T_ACTIVE_FRAME
      ≤ (loop quietEnv desktopBuild 0 0 sevenTicksLater).1.globalTicks
        - (loop quietEnv desktopBuild 0 0 (World.start 1000 [])).1.globalTicks ∧
    ∃ rest, (∀ c ∈ rest, c.isTiming = false) ∧
      ((quietEnv.T_ACTIVE_FRAME
          ≤ quietEnv.clockAfter sevenTicksLater.trace Call.getTicks sevenTicksLater.now
            - (loop quietEnv desktopBuild 0 0 (World.start 1000 [])).1.globalTicks ∧
        (loop quietEnv desktopBuild 0 0 sevenTicksLater).1.trace = sevenTicksLater.trace ++
          [Call.getTicks,
           Call.flip ((loop quietEnv desktopBuild 0 0 sevenTicksLater).1.globalTicks
              - (loop quietEnv desktopBuild 0 0 (World.start 1000 [])).1.globalTicks) 0]
            ++ rest) ∨
       (quietEnv.clockAfter sevenTicksLater.trace Call.getTicks sevenTicksLater.now
            - (loop quietEnv desktopBuild 0 0 (World.start 1000 [])).1.globalTicks
            < quietEnv.T_ACTIVE_FRAME ∧
        0 < quietEnv.T_ACTIVE_FRAME
            - (quietEnv.clockAfter sevenTicksLater.trace Call.getTicks sevenTicksLater.now
              - (loop quietEnv desktopBuild 0 0 (World.start 1000 [])).1.globalTicks) ∧
        quietEnv.T_ACTIVE_FRAME
            - (quietEnv.clockAfter sevenTicksLater.trace Call.getTicks sevenTicksLater.now
              - (loop quietEnv desktopBuild 0 0 (World.start 1000 [])).1.globalTicks)
          ≤ quietEnv.T_ACTIVE_FRAME ∧
        (loop quietEnv desktopBuild 0 0 sevenTicksLater).1.trace = sevenTicksLater.trace ++
          [Call.getTicks,
           Call.delay (quietEnv.T_ACTIVE_FRAME
              - (quietEnv.clockAfter sevenTicksLater.trace Call.getTicks sevenTicksLater.now
                - (loop quietEnv desktopBuild 0 0 (World.start 1000 [])).1.globalTicks)),
           Call.getTicks,
           Call.flip ((loop quietEnv desktopBuild 0 0 sevenTicksLater).1.globalTicks
              - (loop quietEnv desktopBuild 0 0 (World.start 1000 [])).1.globalTicks) 0]
            ++ rest)) :=
  loop_pacing quietEnv desktopBuild 0 0 0 0 (World.start 1000 []) sevenTicksLater
    (by intro h c t; cases c <;> simp [quietEnv])
    (by intro h d t; simp [quietEnv])
    (by decide) rfl (by decide) (by decide)

end OpenJazz
